import Mathlib

/-!
# Verification of the Marketing-Data-Engine normalization / merge / quality core

Shallow embedding of the pandas-based services in
`src/api/services/{data_normalization, data_merger, data_ingestion, data_quality}.py`.

Modelling conventions:
* Python/numpy floats are modelled by `PyFloat`: an exact rational together with
  the special values `nan`, `inf`, `ninf`.  Signed zero is not distinguished.
* A pandas cell is either a string or a numeric value; missing values (NaN/NaT/None)
  are represented by `Cell.num .nan`; datetime values by `Cell.date`.
* A DataFrame is a list of column names plus a list of rows (row-major).
* Report timestamps and the per-service history lists (`normalization_log`,
  `merge_history`, `ingestion_history`) are omitted: no verified property reads them.
  The class attribute `STANDARD_SCHEMA`, which *is* mutated by the code, is threaded
  explicitly as state.
* Arithmetic on string-valued cells (which would raise a `TypeError` in pandas)
  is modelled as producing `nan`; every theorem below restricts to numeric columns,
  so this convention is never exercised by a proved statement.
-/

set_option allowUnsafeReducibility true in
attribute [semireducible] Rat.mul Rat.inv Rat.add Rat.sub Rat.neg Rat.div

/-- IEEE-754-style value: exact rational, or one of the special values.
`nan` also stands for pandas missing values (`NaN`/`NaT`). -/
inductive PyFloat where
  | nan : PyFloat
  | inf : PyFloat
  | ninf : PyFloat
  | val : ℚ → PyFloat
deriving DecidableEq, Repr

namespace PyFloat

/-- Division, following IEEE-754 semantics of numpy/pandas: `x/0` is `±inf` for
`x ≠ 0` and `nan` for `0/0`; `nan` propagates. -/
def div : PyFloat → PyFloat → PyFloat
  | nan, _ => nan
  | _, nan => nan
  | inf, inf => nan
  | inf, ninf => nan
  | ninf, inf => nan
  | ninf, ninf => nan
  | inf, val b => if b < 0 then ninf else inf
  | ninf, val b => if b < 0 then inf else ninf
  | val _, inf => val 0
  | val _, ninf => val 0
  | val a, val b =>
      if b = 0 then (if a = 0 then nan else if a > 0 then inf else ninf)
      else val (a / b)

/-- Multiplication with IEEE special-value handling (`inf * 0 = nan`). -/
def mul : PyFloat → PyFloat → PyFloat
  | nan, _ => nan
  | _, nan => nan
  | inf, inf => inf
  | inf, ninf => ninf
  | ninf, inf => ninf
  | ninf, ninf => inf
  | inf, val b => if b = 0 then nan else if b < 0 then ninf else inf
  | val a, inf => if a = 0 then nan else if a < 0 then ninf else inf
  | ninf, val b => if b = 0 then nan else if b < 0 then inf else ninf
  | val a, ninf => if a = 0 then nan else if a < 0 then inf else ninf
  | val a, val b => val (a * b)

/-- Addition with IEEE special-value handling (`inf + (-inf) = nan`). -/
def add : PyFloat → PyFloat → PyFloat
  | nan, _ => nan
  | _, nan => nan
  | inf, ninf => nan
  | ninf, inf => nan
  | inf, _ => inf
  | _, inf => inf
  | ninf, _ => ninf
  | _, ninf => ninf
  | val a, val b => val (a + b)

/-- IEEE `<`: comparisons with `nan` are false. -/
def lt : PyFloat → PyFloat → Bool
  | nan, _ => false
  | _, nan => false
  | inf, _ => false
  | _, inf => true
  | ninf, ninf => false
  | ninf, _ => true
  | _, ninf => false
  | val a, val b => decide (a < b)

def isNan : PyFloat → Bool
  | nan => true
  | _ => false

/-- Round a rational half-to-even to the nearest integer (numpy rounding). -/
def roundHalfEven (q : ℚ) : ℤ :=
  let f : ℤ := ⌊q⌋
  let r : ℚ := q - (f : ℚ)
  if r < 1/2 then f
  else if r > 1/2 then f + 1
  else if Even f then f else f + 1

/-- `Series.round(4)` on an exact rational: numpy half-to-even at 4 decimals. -/
def roundQ4 (q : ℚ) : ℚ := (roundHalfEven (q * 10000) : ℚ) / 10000

/-- `Series.round(4)`: special values are fixed points. -/
def round4 : PyFloat → PyFloat
  | nan => nan
  | inf => inf
  | ninf => ninf
  | val q => val (roundQ4 q)

/-- `Series.replace(0, np.nan)` on one value. -/
def replaceZeroNan : PyFloat → PyFloat
  | val q => if q = 0 then nan else val q
  | x => x

/-- pandas `Series.sum()` (skipna): fold `add` over the non-nan entries from 0. -/
def pySum (l : List PyFloat) : PyFloat :=
  (l.filter (fun x => !x.isNan)).foldl add (val 0)

/-- pandas `Series.mean()` (skipna): sum of the non-nan entries over their count;
`nan` when there are none. -/
def pyMean (l : List PyFloat) : PyFloat :=
  let nn := l.filter (fun x => !x.isNan)
  if nn.isEmpty then nan else div (nn.foldl add (val 0)) (val nn.length)

end PyFloat

/-- A calendar date as produced by the date-format cascade. -/
structure PyDate where
  y : Nat
  m : Nat
  d : Nat
deriving DecidableEq, Repr

/-- One pandas cell: a string, a numeric value (with `num .nan` standing for any
missing value), or a datetime value. -/
inductive Cell where
  | str : String → Cell
  | num : PyFloat → Cell
  | date : PyDate → Cell
deriving DecidableEq, Repr

namespace Cell

/-- `pd.isna` on one cell. -/
def isna : Cell → Bool
  | num .nan => true
  | _ => false

/-- Numeric view of a cell; string/date operands of arithmetic (a `TypeError`
in pandas, never exercised by the theorems below) are modelled as `nan`. -/
def toNum : Cell → PyFloat
  | num x => x
  | _ => .nan

def cdiv (a b : Cell) : Cell := num (PyFloat.div a.toNum b.toNum)
def cmul (a b : Cell) : Cell := num (PyFloat.mul a.toNum b.toNum)
def cround4 : Cell → Cell
  | num x => num (PyFloat.round4 x)
  | c => c
def creplaceZeroNan : Cell → Cell
  | num x => num (PyFloat.replaceZeroNan x)
  | c => c

/-- `x < 0` in pandas boolean indexing (false on nan and on strings). -/
def ltZero : Cell → Bool
  | num x => PyFloat.lt x (.val 0)
  | _ => false

/-- `x > q` for validity checks. -/
def gtQ (c : Cell) (q : ℚ) : Bool :=
  match c with
  | num x => PyFloat.lt (.val q) x
  | _ => false

/-- `x < q` for validity checks. -/
def ltQ (c : Cell) (q : ℚ) : Bool :=
  match c with
  | num x => PyFloat.lt x (.val q)
  | _ => false

/-- cell-level `clicks > impressions` comparison (false when either is nan/str). -/
def cgt (a b : Cell) : Bool :=
  match a, b with
  | num x, num y => PyFloat.lt y x
  | _, _ => false

end Cell

/-- A DataFrame: ordered column names and row-major data.  Well-formed frames
have every row of length `cols.length`. -/
structure Frame where
  cols : List String
  rows : List (List Cell)
deriving DecidableEq, Repr

/-- First index satisfying a predicate (induction-friendly `findIdx?`). -/
def findIdxA {α : Type} (p : α → Bool) : List α → Option Nat
  | [] => none
  | a :: as => if p a then some 0 else (findIdxA p as).map (fun i => i + 1)

namespace Frame

/-- Index of the first column carrying `name` (pandas label lookup). -/
def colIdx (f : Frame) (name : String) : Option Nat :=
  findIdxA (fun c => c = name) f.cols

def hasCol (f : Frame) (name : String) : Bool := f.cols.contains name

/-- `df[name]` as a positional list of cells (first matching label). -/
def getCol (f : Frame) (name : String) : Option (List Cell) :=
  (f.colIdx name).map (fun i => f.rows.map (fun r => r.getD i (Cell.num .nan)))

/-- `df[name] = data`: replace the column if the label exists, else append it. -/
def setCol (f : Frame) (name : String) (data : List Cell) : Frame :=
  match f.colIdx name with
  | some i => { cols := f.cols, rows := f.rows.zipWith (fun r v => r.set i v) data }
  | none => { cols := f.cols ++ [name], rows := f.rows.zipWith (fun r v => r ++ [v]) data }

/-- Number of rows, `len(df)`. -/
def nRows (f : Frame) : Nat := f.rows.length

/-- `df.size` = rows × columns. -/
def size (f : Frame) : Nat := f.rows.length * f.cols.length

/-- Well-formedness: every row has exactly one cell per column. -/
def WF (f : Frame) : Prop := ∀ r ∈ f.rows, r.length = f.cols.length

instance (f : Frame) : Decidable f.WF :=
  inferInstanceAs (Decidable (∀ r ∈ f.rows, r.length = f.cols.length))

end Frame

/-! ## Kernel-reducible string primitives

`String.toLower`, `String.toUpper`, `String.trim` and the `String` order from
the core library do not reduce under kernel evaluation, so the (ASCII) string
operations the services rely on are re-implemented over the character list. -/

def lowerChar (c : Char) : Char :=
  if 65 ≤ c.toNat && c.toNat ≤ 90 then Char.ofNat (c.toNat + 32) else c

def upperChar (c : Char) : Char :=
  if 97 ≤ c.toNat && c.toNat ≤ 122 then Char.ofNat (c.toNat - 32) else c

/-- Python `str.lower()` (ASCII). -/
def pyLower (s : String) : String := String.mk (s.data.map lowerChar)

/-- Python `str.upper()` (ASCII). -/
def pyUpper (s : String) : String := String.mk (s.data.map upperChar)

def isSpaceChar (c : Char) : Bool := c = ' ' || c = '\t' || c = '\n' || c = '\r'

/-- Python `str.strip()`. -/
def pyStrip (s : String) : String :=
  String.mk (((s.data.dropWhile isSpaceChar).reverse.dropWhile isSpaceChar).reverse)

/-- Lexicographic string comparison on code points (Python `<` on str). -/
def charsLt : List Char -> List Char -> Bool
  | [], [] => false
  | [], _ :: _ => true
  | _ :: _, [] => false
  | a :: as, b :: bs => if a = b then charsLt as bs else decide (a.toNat < b.toNat)

def strLt (a b : String) : Bool := charsLt a.data b.data

/-! ## Generic list helpers shared by the services -/

/-- `drop_duplicates(subset=key, keep='last')`: keep, in order, each row whose key
does not reappear later. -/
def dropDupLast {α β : Type} [DecidableEq β] (key : α → β) : List α → List α
  | [] => []
  | a :: as =>
      if as.any (fun b => key b = key a) then dropDupLast key as
      else a :: dropDupLast key as

/-- Helper for `dropDupFirst`: keep elements not already seen. -/
def dropDupFirstAux {α : Type} [DecidableEq α] (seen : List α) : List α → List α
  | [] => []
  | a :: as =>
      if seen.contains a then dropDupFirstAux seen as
      else a :: dropDupFirstAux (a :: seen) as

/-- `drop_duplicates()` / `duplicated()` basis: keep the first occurrence of each
element, preserving order. -/
def dropDupFirst {α : Type} [DecidableEq α] (l : List α) : List α :=
  dropDupFirstAux [] l

/-- `df.duplicated().sum()`: number of rows marked as non-first duplicates. -/
def dupCount {α : Type} [DecidableEq α] (l : List α) : Nat :=
  l.length - (dropDupFirst l).length

/-- Substring test on char lists (Python `needle in haystack`). -/
def charsContain (needle hay : List Char) : Bool :=
  let rec pre : List Char → List Char → Bool
    | _ :: _, [] => false
    | [], _ => true
    | x :: xs, y :: ys => x = y && pre xs ys
  let rec go : List Char → Bool
    | [] => needle.isEmpty
    | c :: cs => pre needle (c :: cs) || go cs
  go hay

/-- Python `needle in haystack` on strings. -/
def strContains (hay needle : String) : Bool :=
  charsContain needle.toList hay.toList

/-! ## Data Normalization Service (`data_normalization.py`) -/

namespace DataNormalization

/-- Synonym schema: ordered map canonical-name → known source spellings
(`DataNormalizationService.STANDARD_SCHEMA`, a mutable class attribute). -/
abbrev Schema := List (String × List String)

/-- `STANDARD_SCHEMA` as defined in the source. -/
def STANDARD_SCHEMA : Schema := [
  ("campaign_name", ["campaign", "campaign name", "campaign_name", "campaignname"]),
  ("adset_name", ["ad set", "adset", "adset name", "adset_name", "ad group", "adgroup", "adgroup_name"]),
  ("ad_name", ["ad", "ad name", "ad_name", "creative", "creative name", "creative_name"]),
  ("keyword", ["keyword", "keywords", "search term", "search_term"]),
  ("date", ["date", "day", "reporting_period", "report_date", "stat_days"]),
  ("platform", ["platform", "source", "network"]),
  ("country", ["country", "country_code", "country code"]),
  ("device", ["device", "device_type", "device type"]),
  ("impressions", ["impressions", "imps", "impr", "impressions"]),
  ("reach", ["reach", "unique_users", "unique users"]),
  ("frequency", ["frequency", "freq"]),
  ("clicks", ["clicks", "click", "link_clicks", "link clicks"]),
  ("ctr", ["ctr", "click_through_rate", "click-through rate", "click through rate"]),
  ("engagements", ["engagements", "engagement", "total_engagements"]),
  ("conversions", ["conversions", "conv", "converts", "purchases", "completes"]),
  ("conversion_value", ["conversion_value", "conv value", "conversion value", "revenue", "purchase_value"]),
  ("leads", ["leads", "lead", "signups", "sign_ups"]),
  ("spend", ["spend", "cost", "ad spend", "ad_spend", "amount spent", "amount_spent"]),
  ("cpc", ["cpc", "cost_per_click", "cost per click", "average cpc", "avg cpc"]),
  ("cpm", ["cpm", "cost_per_mille", "cost per mille", "cost per 1000 impressions", "average cpm"]),
  ("cpa", ["cpa", "cost_per_acquisition", "cost per acquisition", "cost per conversion"]),
  ("roas", ["roas", "return_on_ad_spend", "return on ad spend"]),
  ("video_views", ["video_views", "video views", "video_views_3s", "3-second video views"]),
  ("video_completions", ["video_completions", "video completions", "100% video views"]),
  ("video_view_rate", ["video_view_rate", "video view rate", "vtr", "vcr"]),
  ("quality_score", ["quality_score", "quality score", "qs"]),
  ("search_impression_share", ["search_impression_share", "search impression share", "sis"])]

/-- `CURRENCY_RATES` (USD-anchored static table). -/
def CURRENCY_RATES : List (String × ℚ) := [
  ("USD", 1), ("EUR", 108/100), ("GBP", 127/100), ("CAD", 74/100),
  ("AUD", 65/100), ("INR", 12/1000), ("JPY", 67/10000), ("BRL", 20/100),
  ("MXN", 58/1000)]

/-- Extend the synonym list of an existing key (Python `list.extend` on the
shared list object). -/
def extendEntry (s : Schema) (k : String) (v : List String) : Schema :=
  s.map (fun p => if p.1 = k then (p.1, p.2 ++ v) else p)

/-- `all_mappings`: shallow copy of the schema, custom entries extending existing
keys in place or appended as new keys. -/
def allMappingsOf (schema : Schema) (custom : List (String × List String)) : Schema :=
  custom.foldl
    (fun acc p =>
      if (acc.map Prod.fst).contains p.1 then extendEntry acc p.1 p.2
      else acc ++ [p])
    schema

/-- Effect of `_map_columns` on the shared `STANDARD_SCHEMA`: because
`all_mappings = self.STANDARD_SCHEMA.copy()` is a *shallow* dict copy,
`all_mappings[k].extend(v)` for an existing key `k` mutates the class-level
synonym list; custom entries with new keys touch only the copy. -/
def mutatedSchema (schema : Schema) (custom : List (String × List String)) : Schema :=
  custom.foldl
    (fun acc p =>
      if (acc.map Prod.fst).contains p.1 then extendEntry acc p.1 p.2
      else acc)
    schema

/-- Canonical target of one source column: first schema entry whose (lower-cased)
synonym list contains the lower-cased, stripped column name; unmatched columns
pass through. -/
def targetName (mappings : Schema) (col : String) : String :=
  let colLower := pyStrip (pyLower col)
  match mappings.findSome?
      (fun p => if (p.2.map pyLower).contains colLower then some p.1 else none) with
  | some std => std
  | none => col

/-- Does a column match any canonical field? -/
def colMatches (mappings : Schema) (col : String) : Bool :=
  let colLower := pyStrip (pyLower col)
  mappings.any (fun p => (p.2.map pyLower).contains colLower)

/-- `_map_columns`: rename every source column to its canonical target and record
the mutation of the shared schema.  Returns (renamed frame, log, new schema). -/
def mapColumns (schema : Schema) (custom : List (String × List String)) (df : Frame) :
    Frame × List String × Schema :=
  let all := allMappingsOf schema custom
  let renamed : Frame := { cols := df.cols.map (targetName all), rows := df.rows }
  let perCol := (df.cols.filter (colMatches all)).map
    (fun c => "Mapped " ++ c ++ " to " ++ targetName all c)
  let mappedCount := (dropDupFirst df.cols).countP (fun c => colMatches all c)
  let log :=
    if mappedCount > 0 then
      ("Column mapping: " ++ toString mappedCount ++ " columns standardized") :: perCol
    else ["No standard column mappings found"]
  (renamed, log, mutatedSchema schema custom)

end DataNormalization

namespace DataNormalization

/-! ### Stage 2: date normalization (`_normalize_dates`) -/

/-- One token of a `strptime` format pattern. -/
inductive DTok where
  | year : DTok
  | monNum : DTok
  | dayNum : DTok
  | monAbbr : DTok
  | monFull : DTok
  | lit : Char → DTok
  | space : DTok

def monthAbbrs : List (String × Nat) :=
  [("jan", 1), ("feb", 2), ("mar", 3), ("apr", 4), ("may", 5), ("jun", 6),
   ("jul", 7), ("aug", 8), ("sep", 9), ("oct", 10), ("nov", 11), ("dec", 12)]

def monthFulls : List (String × Nat) :=
  [("january", 1), ("february", 2), ("march", 3), ("april", 4), ("may", 5),
   ("june", 6), ("july", 7), ("august", 8), ("september", 9), ("october", 10),
   ("november", 11), ("december", 12)]

def isDigit (c : Char) : Bool := decide ('0' ≤ c) && decide (c ≤ '9')

def digitVal (c : Char) : Nat := c.toNat - '0'.toNat

/-- `%Y`: exactly four digits (CPython `_strptime` regex). -/
def takeYear : List Char → Option (Nat × List Char)
  | a :: b :: c :: d :: rest =>
      if isDigit a && isDigit b && isDigit c && isDigit d then
        some (((digitVal a * 10 + digitVal b) * 10 + digitVal c) * 10 + digitVal d, rest)
      else none
  | _ => none

/-- `%m`: regex alternation `1[0-2] | 0[1-9] | [1-9]`, in that order. -/
def takeMonth : List Char → Option (Nat × List Char)
  | a :: b :: rest =>
      if a = '1' && decide ('0' ≤ b) && decide (b ≤ '2') then some (10 + digitVal b, rest)
      else if a = '0' && decide ('1' ≤ b) && decide (b ≤ '9') then some (digitVal b, rest)
      else if decide ('1' ≤ a) && decide (a ≤ '9') then some (digitVal a, b :: rest)
      else none
  | [a] => if decide ('1' ≤ a) && decide (a ≤ '9') then some (digitVal a, []) else none
  | [] => none

/-- `%d`: regex alternation `3[01] | [12]\d | 0[1-9] | [1-9]`, in that order. -/
def takeDay : List Char → Option (Nat × List Char)
  | a :: b :: rest =>
      if a = '3' && (b = '0' || b = '1') then some (30 + digitVal b, rest)
      else if (a = '1' || a = '2') && isDigit b then some (digitVal a * 10 + digitVal b, rest)
      else if a = '0' && decide ('1' ≤ b) && decide (b ≤ '9') then some (digitVal b, rest)
      else if decide ('1' ≤ a) && decide (a ≤ '9') then some (digitVal a, b :: rest)
      else none
  | [a] => if decide ('1' ≤ a) && decide (a ≤ '9') then some (digitVal a, []) else none
  | [] => none

def charsStartWith : List Char → List Char → Bool
  | _ :: _, [] => false
  | [], _ => true
  | x :: xs, y :: ys => x = y && charsStartWith xs ys

/-- Match one month name from a (lower-cased) name table. -/
def takeName (table : List (String × Nat)) (cs : List Char) : Option (Nat × List Char) :=
  table.findSome? (fun p =>
    if charsStartWith p.1.toList cs then some (p.2, cs.drop p.1.length) else none)

/-- Run a format pattern over lower-cased input characters, producing
(year, month, day). -/
def runPat : List DTok → List Char → Option (Nat × Nat × Nat) → Option (Nat × Nat × Nat)
  | [], [], acc => acc
  | [], _ :: _, _ => none
  | t :: ts, cs, acc =>
      match acc with
      | none => none
      | some (y, m, d) =>
        match t with
        | .year => match takeYear cs with
            | some (v, rest) => runPat ts rest (some (v, m, d))
            | none => none
        | .monNum => match takeMonth cs with
            | some (v, rest) => runPat ts rest (some (y, v, d))
            | none => none
        | .dayNum => match takeDay cs with
            | some (v, rest) => runPat ts rest (some (y, m, v))
            | none => none
        | .monAbbr => match takeName monthAbbrs cs with
            | some (v, rest) => runPat ts rest (some (y, v, d))
            | none => none
        | .monFull => match takeName monthFulls cs with
            | some (v, rest) => runPat ts rest (some (y, v, d))
            | none => none
        | .lit c => match cs with
            | c2 :: rest => if c = c2 then runPat ts rest acc else none
            | [] => none
        | .space => match cs with
            | c2 :: rest => if c2 = ' ' then runPat ts (rest.dropWhile (fun x => x = ' ')) acc else none
            | [] => none

def isLeap (y : Nat) : Bool := (y % 4 = 0 && y % 100 ≠ 0) || y % 400 = 0

def daysInMonth (y m : Nat) : Nat :=
  if m = 2 then (if isLeap y then 29 else 28)
  else if m = 4 || m = 6 || m = 9 || m = 11 then 30
  else 31

/-- `datetime.strptime`: run the pattern on the lower-cased string and validate
the calendar date. -/
def strpDate (pat : List DTok) (s : String) : Option PyDate :=
  match runPat pat (pyLower s).data (some (1900, 1, 1)) with
  | some (y, m, d) =>
      if 1 ≤ m && m ≤ 12 && 1 ≤ d && d ≤ daysInMonth y m then some ⟨y, m, d⟩ else none
  | none => none

/-- The ordered format cascade of `_normalize_dates`, with the source patterns. -/
def datePatterns : List (String × List DTok) := [
  ("%Y-%m-%d", [.year, .lit '-', .monNum, .lit '-', .dayNum]),
  ("%m/%d/%Y", [.monNum, .lit '/', .dayNum, .lit '/', .year]),
  ("%d/%m/%Y", [.dayNum, .lit '/', .monNum, .lit '/', .year]),
  ("%Y/%m/%d", [.year, .lit '/', .monNum, .lit '/', .dayNum]),
  ("%d-%m-%Y", [.dayNum, .lit '-', .monNum, .lit '-', .year]),
  ("%m-%d-%Y", [.monNum, .lit '-', .dayNum, .lit '-', .year]),
  ("%Y%m%d", [.year, .monNum, .dayNum]),
  ("%d %b %Y", [.dayNum, .space, .monAbbr, .space, .year]),
  ("%d %B %Y", [.dayNum, .space, .monFull, .space, .year]),
  ("%b %d, %Y", [.monAbbr, .space, .dayNum, .lit ',', .space, .year]),
  ("%B %d, %Y", [.monFull, .space, .dayNum, .lit ',', .space, .year])]

/-- `pd.to_datetime(col, format=pat, errors='raise')`: every non-null value must
parse; null stays NaT; a numeric value raises (modelled as failure). -/
def toDatetimeFmt (pat : List DTok) (cells : List Cell) : Option (List Cell) :=
  cells.mapM (fun c =>
    match c with
    | .num .nan => some (Cell.num .nan)
    | .str s => (strpDate pat s).map Cell.date
    | .date d => some (Cell.date d)
    | .num _ => none)

/-- `pd.to_datetime(col, errors='coerce')` fallback.  The permissive dateutil
parser is modelled as the same explicit format cascade applied per value,
unparseable entries coerced to NaT; no verified statement evaluates this
fallback. -/
def toDatetimeCoerce (cells : List Cell) : List Cell :=
  cells.map (fun c =>
    match c with
    | .str s =>
        match datePatterns.findSome? (fun p => strpDate p.2 s) with
        | some d => Cell.date d
        | none => Cell.num .nan
    | .date d => Cell.date d
    | _ => Cell.num .nan)

/-- `is_datetime64_any_dtype` approximation: every cell is a datetime or NaT. -/
def isDatetimeCol (cells : List Cell) : Bool :=
  cells.all (fun c => (match c with | .date _ => true | _ => false) || c.isna)

/-- `_normalize_dates`: format cascade on the canonical `date` column, permissive
fallback, then drop rows whose date is null. -/
def normalizeDates (df : Frame) : Frame × List String :=
  match df.colIdx "date" with
  | none => (df, [])
  | some i =>
      let col := df.rows.map (fun r => r.getD i (Cell.num .nan))
      let (df1, log1) :=
        if isDatetimeCol col then (df, ([] : List String))
        else
          match datePatterns.findSome? (fun p => (toDatetimeFmt p.2 col).map (fun c => (p.1, c))) with
          | some (patName, newCol) =>
              (df.setCol "date" newCol, ["Date column parsed with format: " ++ patName])
          | none =>
              (df.setCol "date" (toDatetimeCoerce col),
               ["Date column parsed with automatic detection"])
      let dcol := df1.rows.map (fun r => r.getD i (Cell.num .nan))
      let invalid := dcol.countP (fun c => c.isna)
      if invalid > 0 then
        ({ cols := df1.cols, rows := df1.rows.filter (fun r => !(r.getD i (Cell.num .nan)).isna) },
         log1 ++ ["Warning: " ++ toString invalid ++ " rows with invalid dates removed"])
      else (df1, log1)

/-! ### Stage 3: numeric normalization (`_normalize_numeric`) -/

def numericCols : List String :=
  ["impressions", "clicks", "spend", "conversions", "conversion_value",
   "reach", "cpc", "cpm", "ctr"]

/-- Parse a cleaned numeric literal the way `float()` does (sign, digits,
optional fraction; `nan`/`inf` literals; scientific notation is not modelled
and no verified statement relies on it). -/
def parsePyFloat (s : String) : Option PyFloat :=
  let t := pyLower (pyStrip s)
  if t = "nan" then some .nan
  else if t = "inf" || t = "infinity" || t = "+inf" then some .inf
  else if t = "-inf" || t = "-infinity" then some .ninf
  else
    let (sign, body) :=
      match t.toList with
      | '-' :: rest => ((-1 : ℚ), rest)
      | '+' :: rest => ((1 : ℚ), rest)
      | cs => ((1 : ℚ), cs)
    let intPart := body.takeWhile isDigit
    let rest := body.dropWhile isDigit
    let parseDigits (l : List Char) : ℚ := l.foldl (fun acc c => acc * 10 + (digitVal c : ℚ)) 0
    match rest with
    | [] => if intPart.isEmpty then none else some (.val (sign * parseDigits intPart))
    | '.' :: frac =>
        if frac.all isDigit && !(intPart.isEmpty && frac.isEmpty) then
          some (.val (sign * (parseDigits intPart +
            parseDigits frac / ((10 : ℚ) ^ frac.length))))
        else none
    | _ => none

/-- Strip `$`, `,` and `%` and coerce to a number (`pd.to_numeric(errors='coerce')`);
unparseable entries become NaN. -/
def cleanNumericCell : Cell → Cell
  | .str s =>
      let cleaned := String.mk (s.toList.filter (fun c => c ≠ '$' && c ≠ ',' && c ≠ '%'))
      Cell.num ((parsePyFloat cleaned).getD .nan)
  | .num x => Cell.num x
  | .date _ => Cell.num .nan

/-- dtype `object` approximation: the column holds at least one string. -/
def isObjectCol (cells : List Cell) : Bool :=
  cells.any (fun c => match c with | .str _ => true | _ => false)

/-- `_normalize_numeric`: clean the known numeric-metric columns stored as text. -/
def normalizeNumeric (df : Frame) : Frame × List String :=
  numericCols.foldl
    (fun (acc : Frame × List String) col =>
      match acc.1.getCol col with
      | none => acc
      | some cells =>
          if isObjectCol cells then
            (acc.1.setCol col (cells.map cleanNumericCell),
             acc.2 ++ ["Cleaned numeric column: " ++ col])
          else acc)
    (df, [])

/-! ### Stage 4: currency normalization (`_normalize_currency`) -/

def monetaryCols : List String := ["spend", "cpc", "cpm", "cpa", "conversion_value"]

/-- Per-row conversion `value * rate[row_currency] / rate[target]`; rows whose
currency cell is null or unsupported keep their value.  (A numeric, non-null
currency cell would raise `AttributeError` in the source; it is modelled as
unconverted and never exercised by a verified statement.) -/
def convertCell (targetRate : ℚ) (curr : Cell) (v : Cell) : Cell :=
  if curr.isna then v
  else
    match curr with
    | .str s =>
        match CURRENCY_RATES.lookup (pyUpper s) with
        | some rate => Cell.num (PyFloat.div (PyFloat.mul v.toNum (.val rate)) (.val targetRate))
        | none => v
    | _ => v

/-- `_normalize_currency`. -/
def normalizeCurrency (df : Frame) (target : String) : Frame × List String :=
  match CURRENCY_RATES.lookup target with
  | none => (df, ["Currency " ++ target ++ " not supported, keeping original values"])
  | some targetRate =>
      match df.colIdx "currency" with
      | none => (df, ["No currency column found, assuming all values are in " ++ target])
      | some ci =>
          monetaryCols.foldl
            (fun (acc : Frame × List String) col =>
              match acc.1.colIdx col with
              | none => acc
              | some _ =>
                  let newData := acc.1.rows.map (fun r =>
                    convertCell targetRate (r.getD ci (Cell.num .nan))
                      (r.getD ((acc.1.colIdx col).getD 0) (Cell.num .nan)))
                  (acc.1.setCol col newData, acc.2 ++ ["Converted " ++ col ++ " to " ++ target]))
            (df, [])

/-! ### Stage 5: deduplication (`_deduplicate`) -/

def dedupKeyCols : List String := ["date", "campaign_name", "adset_name", "ad_name", "platform"]

/-- Projection of a row onto the key columns (pandas `subset=` selection). -/
def projKey (cols keys : List String) (r : List Cell) : List Cell :=
  ((cols.zip r).filter (fun p => keys.contains p.1)).map Prod.snd

/-- `_deduplicate`: key-based last-kept dedup when any key column exists, else
exact full-row dedup. -/
def deduplicate (df : Frame) : Frame × List String :=
  let existing := dedupKeyCols.filter (fun c => df.cols.contains c)
  if existing.isEmpty then
    let dups := dupCount df.rows
    if dups > 0 then
      ({ cols := df.cols, rows := dropDupFirst df.rows },
       ["Removed " ++ toString dups ++ " exact duplicate rows"])
    else (df, [])
  else
    let newRows := dropDupLast (projKey df.cols existing) df.rows
    let removed := df.rows.length - newRows.length
    ({ cols := df.cols, rows := newRows },
     if removed > 0 then
       ["Removed " ++ toString removed ++ " duplicate rows based on key columns"]
     else [])

/-! ### Stage 6: derived metrics (`_calculate_derived_metrics`) -/

/-- `(clicks / impressions * 100).round(4)` elementwise. -/
def ctrOp (c i : Cell) : Cell := (Cell.cmul (Cell.cdiv c i) (Cell.num (.val 100))).cround4

/-- `(spend / clicks).round(4)` elementwise. -/
def cpcOp (s c : Cell) : Cell := (Cell.cdiv s c).cround4

/-- `(spend / impressions * 1000).round(4)` elementwise. -/
def cpmOp (s i : Cell) : Cell := (Cell.cmul (Cell.cdiv s i) (Cell.num (.val 1000))).cround4

/-- `(spend / conversions.replace(0, nan)).round(4)` elementwise. -/
def cpaOp (s c : Cell) : Cell := (Cell.cdiv s c.creplaceZeroNan).cround4

/-- `(conversion_value / spend.replace(0, nan)).round(4)` elementwise. -/
def roasOp (cv s : Cell) : Cell := (Cell.cdiv cv s.creplaceZeroNan).cround4

/-- Add one derived column when absent and both inputs are present. -/
def deriveStep (df : Frame) (target a b : String) (op : Cell → Cell → Cell)
    (logLine : String) : Frame × List String :=
  if df.hasCol target then (df, [])
  else
    match df.getCol a, df.getCol b with
    | some ca, some cb => (df.setCol target (List.zipWith op ca cb), [logLine])
    | _, _ => (df, [])

/-- `_calculate_derived_metrics`: backfill CTR, CPC, CPM, CPA, ROAS. -/
def calcDerivedMetrics (df : Frame) : Frame × List String :=
  let (d1, l1) := deriveStep df "ctr" "clicks" "impressions" ctrOp
    "Calculated CTR = (clicks / impressions) * 100"
  let (d2, l2) := deriveStep d1 "cpc" "spend" "clicks" cpcOp
    "Calculated CPC = spend / clicks"
  let (d3, l3) := deriveStep d2 "cpm" "spend" "impressions" cpmOp
    "Calculated CPM = (spend / impressions) * 1000"
  let (d4, l4) := deriveStep d3 "cpa" "spend" "conversions" cpaOp
    "Calculated CPA = spend / conversions"
  let (d5, l5) := deriveStep d4 "roas" "conversion_value" "spend" roasOp
    "Calculated ROAS = conversion_value / spend"
  (d5, l1 ++ l2 ++ l3 ++ l4 ++ l5)

/-! ### Stage 7: missing values (`_handle_missing_values`) -/

def numericFillZero : List String :=
  ["impressions", "clicks", "spend", "conversions", "conversion_value", "reach", "video_views"]

def textFillCols : List String := ["campaign_name", "adset_name", "ad_name", "keyword"]

def fillStep (fill : Cell) (noun : String) (acc : Frame × List String) (col : String) :
    Frame × List String :=
  match acc.1.getCol col with
  | none => acc
  | some cells =>
      let missing := cells.countP (fun c => c.isna)
      if missing > 0 then
        (acc.1.setCol col (cells.map (fun c => if c.isna then fill else c)),
         acc.2 ++ ["Filled " ++ toString missing ++ " missing values in " ++ col ++
                   " with " ++ noun])
      else acc

/-- `_handle_missing_values`: volume metrics default to 0, identifier text to
the empty string; ratio metrics stay null. -/
def handleMissingValues (df : Frame) : Frame × List String :=
  let s1 := numericFillZero.foldl (fillStep (Cell.num (.val 0)) "0") (df, [])
  textFillCols.foldl (fillStep (Cell.str "") "empty string") s1

/-! ### `normalize`: the full pipeline -/

/-- The `normalization_report` record (timestamp omitted). -/
structure NormRecord where
  platform : String
  original_columns : List String
  normalized_columns : List String
  original_rows : Nat
  final_rows : Nat
  steps_performed : List String
deriving DecidableEq, Repr

structure NormResult where
  success : Bool
  data : Frame
  report : NormRecord
deriving DecidableEq, Repr

/-- `DataNormalizationService.normalize`.  The shared class-level schema is
threaded as explicit state (`custom = []` models `custom_mappings=None`).
Note: the source computes both `original_rows` and `final_rows` from the
DataFrame variable *after* the pipeline has rebound it. -/
def normalize (schema : Schema) (df : Frame) (platform : String := "unknown")
    (currency : String := "USD") (custom : List (String × List String) := []) :
    NormResult × Schema :=
  let originalCols := df.cols
  let (df1, log1, schema2) := mapColumns schema custom df
  let (df2, log2) := normalizeDates df1
  let (df3, log3) := normalizeNumeric df2
  let (df4, log4) := normalizeCurrency df3 currency
  let (df5, log5) := deduplicate df4
  let (df6, log6) := calcDerivedMetrics df5
  let (df7, log7) := handleMissingValues df6
  let record : NormRecord :=
    { platform := platform
      original_columns := originalCols
      normalized_columns := df7.cols
      original_rows := df7.nRows
      final_rows := df7.nRows
      steps_performed := log1 ++ log2 ++ log3 ++ log4 ++ log5 ++ log6 ++ log7 }
  ({ success := true, data := df7, report := record }, schema2)

end DataNormalization

/-! ## Multi-Platform Data Merger Service (`data_merger.py`) -/

namespace DataMerger

def DATE_COLUMN_CANDIDATES : List String :=
  ["date", "day", "report_date", "stat_days", "start date", "end date"]

def CAMPAIGN_COLUMN_CANDIDATES : List String :=
  ["campaign", "campaign_name", "campaign name", "campaign id"]

def PLATFORM_COLUMN_CANDIDATES : List String :=
  ["platform", "source", "channel", "ad_platform"]

/-- `_find_column`: first candidate (in order) present case-insensitively; returns
the original column name.  The `{col.lower(): col}` dict keeps the *last* column
with a given lower-cased spelling. -/
def findColumn (cols : List String) (candidates : List String) : Option String :=
  candidates.findSome? (fun cand =>
    (cols.filter (fun c => pyLower c = pyLower cand)).getLast?)

/-- Total comparison used to model pandas ascending key sort; `nan` sorts last,
numbers before strings before dates (mixed-type keys would raise in pandas and
are never exercised by a verified statement). -/
def pfLe : PyFloat → PyFloat → Bool
  | .nan, _ => false
  | _, .nan => true
  | .ninf, _ => true
  | _, .ninf => false
  | _, .inf => true
  | .inf, _ => false
  | .val a, .val b => decide (a ≤ b)

def cellLe : Cell → Cell → Bool
  | .num a, .num b => pfLe a b
  | .num _, _ => true
  | _, .num _ => false
  | .str a, .str b => strLt a b || decide (a = b)
  | .str _, _ => true
  | _, .str _ => false
  | .date a, .date b =>
      decide (a.y < b.y) ||
      (a.y = b.y && (decide (a.m < b.m) || (a.m = b.m && decide (a.d ≤ b.d))))

def keyLe : List Cell → List Cell → Bool
  | [], _ => true
  | _ :: _, [] => false
  | a :: as, b :: bs => if a = b then keyLe as bs else cellLe a b

def insSorted {α : Type} (le : α → α → Bool) (a : α) : List α → List α
  | [] => [a]
  | b :: bs => if le a b then a :: b :: bs else b :: insSorted le a bs

def insSort {α : Type} (le : α → α → Bool) (l : List α) : List α :=
  l.foldr (insSorted le) []

/-- Progressive `pd.merge(l, r, on=key, how='outer', suffixes=('', '_dup'))`:
match rows by key value (cartesian product on duplicate keys), unmatched sides
filled with NaN, output ordered by ascending key (pandas sorts outer-join keys);
right-hand non-key columns colliding with a left column get the `_dup` suffix. -/
def outerMerge (l r : Frame) (key : String) : Frame :=
  let li := (l.colIdx key).getD 0
  let ri := (r.colIdx key).getD 0
  let rKeep := ((List.range r.cols.length).filter (fun j => j ≠ ri))
  let newRcols := rKeep.map (fun j =>
    let c := r.cols.getD j ""
    if l.cols.contains c then c ++ "_dup" else c)
  let lKeys := l.rows.map (fun row => row.getD li (Cell.num .nan))
  let rKeys := r.rows.map (fun row => row.getD ri (Cell.num .nan))
  let allKeys := insSort cellLe (dropDupFirst (lKeys ++ rKeys))
  let projR := fun (row : List Cell) => rKeep.map (fun j => row.getD j (Cell.num .nan))
  let rowsFor := fun (k : Cell) =>
    let lms := l.rows.filter (fun row => row.getD li (Cell.num .nan) = k)
    let rms := r.rows.filter (fun row => row.getD ri (Cell.num .nan) = k)
    match lms, rms with
    | [], _ =>
        rms.map (fun rm =>
          (List.range l.cols.length).map (fun j => if j = li then k else Cell.num .nan)
          ++ projR rm)
    | _ :: _, [] => lms.map (fun lm => lm ++ List.replicate rKeep.length (Cell.num .nan))
    | _ :: _, _ :: _ => lms.flatMap (fun lm => rms.map (fun rm => lm ++ projR rm))
  { cols := l.cols ++ newRcols, rows := allKeys.flatMap rowsFor }

/-- `pd.concat(datasets, ignore_index=True, sort=False)`: union of columns in
order of first appearance, rows stacked, absent columns filled with NaN. -/
def concatFrames (ds : List Frame) : Frame :=
  let unionCols := ds.foldl (fun acc df => acc ++ df.cols.filter (fun c => !acc.contains c)) []
  { cols := unionCols
    rows := ds.flatMap (fun df =>
      df.rows.map (fun r =>
        unionCols.map (fun c =>
          match df.colIdx c with
          | some i => r.getD i (Cell.num .nan)
          | none => Cell.num .nan))) }

structure MergeMeta where
  input_datasets : Nat
  strategy : String
  common_columns : List String
  all_columns : List String
  output_rows : Nat
  output_columns : Nat
deriving DecidableEq, Repr

/-- Tagged result (`{'success': True, ...}` / `{'success': False, 'error': ...}`). -/
inductive MergeResult where
  | ok : Frame → MergeMeta → MergeResult
  | err : String → MergeResult
deriving DecidableEq, Repr

def MergeResult.isErr : MergeResult → Bool
  | .err _ => true
  | .ok _ _ => false

/-- `merge_datasets`. -/
def mergeDatasets (datasets : List Frame) (platformNames : Option (List String))
    (strategy : String) : MergeResult :=
  match datasets with
  | [] => .err "No datasets provided"
  | d0 :: _ =>
    let ds :=
      match platformNames with
      | some names =>
          if names.length = datasets.length then
            datasets.zipWith
              (fun df p =>
                if df.hasCol "platform" then df
                else df.setCol "platform" (df.rows.map (fun _ => Cell.str p)))
              names
          else datasets
      | none => datasets
    let hd := ds.headD d0
    let commonCols := ds.tail.foldl (fun acc df => acc.filter (fun c => df.cols.contains c))
      (dropDupFirst hd.cols)
    let allCols := ds.foldl (fun acc df => acc ++ df.cols.filter (fun c => !acc.contains c)) []
    if strategy = "append" then
      let merged := concatFrames ds
      .ok merged
        { input_datasets := ds.length, strategy := strategy,
          common_columns := commonCols, all_columns := allCols,
          output_rows := merged.nRows, output_columns := merged.cols.length }
    else if strategy = "join" then
      match findColumn hd.cols (DATE_COLUMN_CANDIDATES ++ CAMPAIGN_COLUMN_CANDIDATES) with
      | none => .err "No common join column (date or campaign) found"
      | some joinCol =>
          if commonCols.contains joinCol then
            let merged := ds.tail.foldl (fun acc df => outerMerge acc df joinCol) hd
            .ok merged
              { input_datasets := ds.length, strategy := strategy,
                common_columns := commonCols, all_columns := allCols,
                output_rows := merged.nRows, output_columns := merged.cols.length }
          else .err "No common join column (date or campaign) found"
    else .err ("Unknown merge strategy: " ++ strategy)

/-! ### `aggregate_by_campaign` -/

inductive AggFn where
  | sum : AggFn
  | mean : AggFn
deriving DecidableEq, Repr

def AggFn.apply : AggFn → List PyFloat → PyFloat
  | .sum => PyFloat.pySum
  | .mean => PyFloat.pyMean

def aggSumCols : List String :=
  ["impressions", "clicks", "spend", "conversions", "conversion_value"]

def aggAvgCols : List String := ["ctr", "cpc", "cpm", "roas"]

/-- `df.groupby(groupCols).agg(aggDict).reset_index()`: rows with a null group
key are dropped, distinct keys sorted ascending, aggregated columns appear in
dictionary order after the key columns. -/
def groupAgg (df : Frame) (groupCols : List String) (aggDict : List (String × AggFn)) :
    Frame :=
  let gIdxs := groupCols.map (fun c => (df.colIdx c).getD 0)
  let keyOf := fun (r : List Cell) => gIdxs.map (fun i => r.getD i (Cell.num .nan))
  let validRows := df.rows.filter (fun r => !(keyOf r).any Cell.isna)
  let keys := insSort keyLe (dropDupFirst (validRows.map keyOf))
  let buildRow := fun (k : List Cell) =>
    let members := validRows.filter (fun r => keyOf r = k)
    k ++ aggDict.map (fun p =>
      let j := (df.colIdx p.1).getD 0
      Cell.num (p.2.apply (members.map (fun r => (r.getD j (Cell.num .nan)).toNum))))
  { cols := groupCols ++ aggDict.map Prod.fst, rows := keys.map buildRow }

/-- One conditional recompute line, `if a in cols and b in cols: df[t] = op(df[a], df[b])`. -/
def condSetCol (h : Frame) (t a b : String) (op : Cell → Cell → Cell) : Frame :=
  if h.hasCol a && h.hasCol b then
    match h.getCol a, h.getCol b with
    | some ca, some cb => h.setCol t (List.zipWith op ca cb)
    | _, _ => h
  else h

/-- The metric-recompute tail of `aggregate_by_campaign`: CTR from summed
clicks/impressions (no zero-denominator guard), CPA and ROAS with
`replace(0, nan)` on the denominator. -/
def recomputeCampaignMetrics (grouped : Frame) : Frame :=
  let g1 := condSetCol grouped "ctr" "clicks" "impressions" DataNormalization.ctrOp
  let g2 := condSetCol g1 "cpa" "spend" "conversions" DataNormalization.cpaOp
  condSetCol g2 "roas" "conversion_value" "spend" DataNormalization.roasOp

structure CampaignAggResult where
  success : Bool
  data : Frame
  total_campaigns : Nat
  error : String
deriving DecidableEq, Repr

/-- `aggregate_by_campaign`: group by campaign (optionally × platform), sum the
volume metrics, average the ratio metrics, then recompute CTR (no
zero-denominator guard) and CPA/ROAS (zero denominator replaced by NaN). -/
def aggregateByCampaign (df : Frame) (includePlatformBreakdown : Bool := true) :
    CampaignAggResult :=
  match findColumn df.cols CAMPAIGN_COLUMN_CANDIDATES with
  | none =>
      { success := false, data := { cols := [], rows := [] }, total_campaigns := 0,
        error := "No campaign column found" }
  | some campaignCol =>
      let df1 : Frame :=
        if campaignCol ≠ "campaign_name" then
          { cols := df.cols.map (fun c => if c = campaignCol then "campaign_name" else c),
            rows := df.rows }
        else df
      let existingSum := aggSumCols.filter (fun c => df1.cols.contains c)
      let existingAvg := aggAvgCols.filter (fun c => df1.cols.contains c)
      let aggDict := existingSum.map (fun c => (c, AggFn.sum))
        ++ existingAvg.map (fun c => (c, AggFn.mean))
      let (df2, groupCols) :=
        if includePlatformBreakdown then
          match findColumn df1.cols PLATFORM_COLUMN_CANDIDATES with
          | some platformCol =>
              let dfp : Frame :=
                if platformCol ≠ "platform" then
                  { cols := df1.cols.map (fun c => if c = platformCol then "platform" else c),
                    rows := df1.rows }
                else df1
              (dfp, ["campaign_name", "platform"])
          | none =>
              if df1.cols.contains "platform" then (df1, ["campaign_name", "platform"])
              else (df1, ["campaign_name"])
        else (df1, ["campaign_name"])
      let grouped := groupAgg df2 groupCols aggDict
      let g3 := recomputeCampaignMetrics grouped
      { success := true, data := g3,
        total_campaigns := (dropDupFirst ((g3.getCol "campaign_name").getD [])).length,
        error := "" }

end DataMerger

/-! ## Data Ingestion Service (`data_ingestion.py`): platform detection -/

namespace DataIngestion

/-- The `identifiers` entries of `PLATFORM_MAPPINGS` (the `date_columns` and
`metric_columns` entries are not read by `detect_platform`). -/
def PLATFORM_IDENTIFIERS : List (String × List String) := [
  ("google_ads", ["campaign", "ad group", "keyword", "clicks", "impressions", "cost", "ctr"]),
  ("meta_ads", ["campaign name", "ad set name", "ad name", "campaign_id", "reach", "frequency"]),
  ("tiktok_ads", ["campaign_name", "adgroup_name", "ad_name", "campaign_id"]),
  ("linkedin_ads", ["campaign name", "campaign group", "creative name"])]

/-- Per-platform fraction of identifiers occurring as a substring of some
lower-cased, stripped column name. -/
def platformScores (cols : List String) : List (String × ℚ) :=
  let colsLower := cols.map (fun c => pyStrip (pyLower c))
  PLATFORM_IDENTIFIERS.map (fun p =>
    let ids := p.2.map pyLower
    let nMatch := ids.countP (fun i => colsLower.any (fun col => strContains col i))
    (p.1, (nMatch : ℚ) / (ids.length : ℚ)))

/-- `detect_platform`: arg-max score (first wins on ties, dict order), reporting
`('unknown', 0.0)` when the best score is below 0.2. -/
def detectPlatform (cols : List String) : String × ℚ :=
  let scores := platformScores cols
  let best := scores.foldl (fun b p => if p.2 > b.2 then p else b) ("", 0)
  if best.2 < 1/5 then ("unknown", 0) else best

end DataIngestion

/-! ## Data Quality Service (`data_quality.py`): the quality score -/

namespace DataQuality

/-- Total missing cells, `df.isna().sum().sum()`. -/
def missingCells (df : Frame) : Nat :=
  (df.rows.map (fun r => r.countP (fun c => c.isna))).sum

/-- The three critical columns inspected by `_check_completeness`. -/
def criticalCols : List String := ["campaign_name", "date", "spend"]

/-- Penalty contributed by one critical column: `min(20, missing%)` when the
column is present and has missing values, else 0. -/
def critPenalty (df : Frame) (col : String) : ℚ :=
  match df.getCol col with
  | none => 0
  | some cells =>
      let m := cells.countP (fun c => c.isna)
      if m > 0 then min 20 ((m : ℚ) / (df.nRows : ℚ) * 100) else 0

/-- `_check_completeness` penalty: the per-critical-column penalties (the loop
accumulates `result['penalty'] += ...`, i.e. their sum), plus `(1 - ratio) * 100`
when overall completeness is below 95%. -/
def completenessPenalty (df : Frame) : ℚ :=
  let ratio : ℚ := 1 - (missingCells df : ℚ) / (df.size : ℚ)
  (criticalCols.map (critPenalty df)).sum
    + (if ratio < 95/100 then (1 - ratio) * 100 else 0)

/-- `_check_uniqueness` penalty: `min(10, dup% * 50)` when exact duplicates exist
(the low-cardinality check is a warning only). -/
def uniquenessPenalty (df : Frame) : ℚ :=
  let d := dupCount df.rows
  if d > 0 then min 10 ((d : ℚ) / (df.nRows : ℚ) * 50) else 0

/-- `_check_validity` penalty: CTR outside [0, 50] (cap 10), negative spend
(cap 15), negative impressions/clicks/conversions (cap 5 each). -/
def validityPenalty (df : Frame) : ℚ :=
  let n := df.nRows
  let ctrPart :=
    match df.getCol "ctr" with
    | none => 0
    | some cells =>
        let bad := cells.countP (fun c => c.ltQ 0 || c.gtQ 50)
        if bad > 0 then min 10 ((bad : ℚ) / (n : ℚ) * 100) else 0
  let spendPart :=
    match df.getCol "spend" with
    | none => 0
    | some cells =>
        let bad := cells.countP Cell.ltZero
        if bad > 0 then min 15 ((bad : ℚ) / (n : ℚ) * 100) else 0
  let negParts := ["impressions", "clicks", "conversions"].foldl
    (fun acc col =>
      match df.getCol col with
      | none => acc
      | some cells =>
          let bad := cells.countP Cell.ltZero
          if bad > 0 then acc + min 5 ((bad : ℚ) / (n : ℚ) * 100) else acc)
    0
  ctrPart + spendPart + negParts

/-- `_check_consistency` penalty: rows with clicks > impressions, capped at 15
(the CTR-divergence check is a warning only). -/
def consistencyPenalty (df : Frame) : ℚ :=
  match df.getCol "clicks", df.getCol "impressions" with
  | some cc, some ic =>
      let bad := (List.zipWith Cell.cgt cc ic).countP (fun b => b)
      if bad > 0 then min 15 ((bad : ℚ) / (df.nRows : ℚ) * 100) else 0
  | _, _ => 0

/-- `_check_timeliness` adds warnings only; its penalty is always 0. -/
def timelinessPenalty (_df : Frame) : ℚ := 0

/-- `check_quality` score: start at 100, subtract every penalty, floor at 0. -/
def checkQualityScore (df : Frame) : ℚ :=
  max 0 (100 - (completenessPenalty df + uniquenessPenalty df + validityPenalty df
    + consistencyPenalty df + timelinessPenalty df))

/-- `_calculate_grade`. -/
def calculateGrade (score : ℚ) : String :=
  if score ≥ 95 then "A+"
  else if score ≥ 90 then "A"
  else if score ≥ 85 then "B+"
  else if score ≥ 80 then "B"
  else if score ≥ 70 then "C"
  else if score ≥ 60 then "D"
  else "F"

end DataQuality

/-! ## Concrete example tables used by the verification -/

/-- Replace the cell at row `i` of the (first) column labelled `name`
(used to state perturbation properties of the quality score). -/
def updateCell (f : Frame) (name : String) (i : Nat) (c : Cell) : Frame :=
  match f.colIdx name with
  | none => f
  | some j => { cols := f.cols, rows := f.rows.set i ((f.rows.getD i []).set j c) }

/-- A table with clicks but zero impressions and no `ctr` column. -/
def clicksNoImpressions : Frame :=
  { cols := ["clicks", "impressions"], rows := [[.num (.val 5), .num (.val 0)]] }

/-- One campaign row with clicks 5 and impressions 0. -/
def campaignZeroImpressions : Frame :=
  { cols := ["campaign_name", "clicks", "impressions"],
    rows := [[.str "a", .num (.val 5), .num (.val 0)]] }

/-- A table whose only column is `campaign_name`, with two identical rows. -/
def dupCampaignFrame : Frame :=
  { cols := ["campaign_name"], rows := [[.str "a"], [.str "a"]] }

/-- Source columns `clicks` and `link_clicks` both match synonyms of the
canonical `clicks` field. -/
def collidingColsFrame : Frame := { cols := ["clicks", "link_clicks"], rows := [] }

/-- A frame whose single source column matches nothing in the standard schema. -/
def unmatchedColFrame : Frame := { cols := ["whatever"], rows := [] }

/-- A frame whose source column matches only a caller-supplied custom synonym. -/
def customSynonymFrame : Frame := { cols := ["My Campaign Col"], rows := [] }

/-- First table for the join-strategy merge example: has `date` and `campaign`. -/
def joinLeftFrame : Frame :=
  { cols := ["date", "campaign"], rows := [[.date ⟨2024, 1, 1⟩, .str "a"]] }

/-- Second table for the join-strategy merge example: has only `campaign`. -/
def joinRightFrame : Frame := { cols := ["campaign"], rows := [[.str "a"]] }

/-- One row of the quality-score example table. -/
def qualityRow (name : String) (sp : PyFloat) (x : ℚ) : List Cell :=
  [.str name, .num sp, .num (.val x), .num (.val 1), .num (.val 1), .num (.val 1),
   .num (.val 1), .num (.val 1), .num (.val 1), .num (.val 1)]

def qualityCols : List String :=
  ["campaign_name", "spend", "c3", "c4", "c5", "c6", "c7", "c8", "c9", "c10"]

/-- 10 rows x 10 columns: rows 0 and 1 are exact duplicates, `spend` is already
missing in rows 8 and 9 (so the per-column completeness penalty is at its cap). -/
def qualityT1 : Frame :=
  { cols := qualityCols,
    rows := [qualityRow "a" (.val 1) 0, qualityRow "a" (.val 1) 0,
             qualityRow "c" (.val 1) 3, qualityRow "d" (.val 1) 4,
             qualityRow "e" (.val 1) 5, qualityRow "f" (.val 1) 6,
             qualityRow "g" (.val 1) 7, qualityRow "h" (.val 1) 8,
             qualityRow "i" .nan 9, qualityRow "j" .nan 10] }

/-- `qualityT1` with the `spend` value of row 1 replaced by a null: this
destroys the duplicate pair, so the uniqueness penalty disappears. -/
def qualityT2 : Frame := updateCell qualityT1 "spend" 1 (.num .nan)

/-- All five derived-metric inputs present, none of the derived columns. -/
def derivedInputsFrame : Frame :=
  { cols := ["clicks", "impressions", "spend", "conversions", "conversion_value"],
    rows := [[.num (.val 5), .num (.val 10), .num (.val 4), .num (.val 0), .num (.val 8)]] }

/-- One campaign with spend 100 and zero conversions (two rows to aggregate). -/
def campaignZeroConversions : Frame :=
  { cols := ["campaign_name", "spend", "conversions"],
    rows := [[.str "a", .num (.val 60), .num (.val 0)],
             [.str "a", .num (.val 40), .num (.val 0)]] }

/-! ## Lemmas about the deduplication primitives -/

theorem mem_of_mem_dropDupLast {α β : Type} [DecidableEq β] (key : α → β) :
    ∀ (l : List α) {x : α}, x ∈ dropDupLast key l → x ∈ l := by
  intro l
  induction l with
  | nil => intro x h; simp [dropDupLast] at h
  | cons a as ih =>
      intro x h
      by_cases hc : as.any (fun b => key b = key a)
      · simp only [dropDupLast, hc, if_true] at h
        exact List.mem_cons_of_mem a (ih h)
      · simp only [dropDupLast, hc, Bool.false_eq_true, if_false, List.mem_cons] at h
        rcases h with h | h
        · exact h ▸ List.mem_cons_self a as
        · exact List.mem_cons_of_mem a (ih h)

theorem dropDupLast_pairwise {α β : Type} [DecidableEq β] (key : α → β) :
    ∀ l : List α, (dropDupLast key l).Pairwise (fun a b => key a ≠ key b) := by
  intro l
  induction l with
  | nil => simp [dropDupLast]
  | cons a as ih =>
      by_cases hc : as.any (fun b => key b = key a)
      · simpa only [dropDupLast, hc, if_true] using ih
      · simp only [dropDupLast, hc, Bool.false_eq_true, if_false]
        refine List.pairwise_cons.mpr ⟨?_, ih⟩
        intro b hb hkey
        have hmem : b ∈ as := mem_of_mem_dropDupLast key as hb
        have hany : as.any (fun b => key b = key a) = true := by
          simp only [List.any_eq_true, decide_eq_true_eq]
          exact ⟨b, hmem, hkey.symm⟩
        exact hc hany

theorem dropDupLast_eq_self {α β : Type} [DecidableEq β] (key : α → β) :
    ∀ {l : List α}, l.Pairwise (fun a b => key a ≠ key b) → dropDupLast key l = l := by
  intro l
  induction l with
  | nil => intro _; rfl
  | cons a as ih =>
      intro h
      obtain ⟨hhead, htail⟩ := List.pairwise_cons.mp h
      have hc : as.any (fun b => key b = key a) = false := by
        simp only [List.any_eq_false, decide_eq_true_eq]
        intro b hb he
        exact hhead b hb he.symm
      simp only [dropDupLast, hc, Bool.false_eq_true, if_false]
      exact congrArg (a :: ·) (ih htail)

theorem dropDupLast_idem {α β : Type} [DecidableEq β] (key : α → β) (l : List α) :
    dropDupLast key (dropDupLast key l) = dropDupLast key l :=
  dropDupLast_eq_self key (dropDupLast_pairwise key l)

theorem mem_dropDupFirstAux {α : Type} [DecidableEq α] :
    ∀ (l seen : List α) (x : α), x ∈ dropDupFirstAux seen l ↔ x ∈ l ∧ x ∉ seen := by
  intro l
  induction l with
  | nil => intro seen x; simp [dropDupFirstAux]
  | cons a as ih =>
      intro seen x
      by_cases hc : seen.contains a
      · have hamem : a ∈ seen := by simpa using hc
        simp only [dropDupFirstAux, hc, if_true, ih, List.mem_cons]
        constructor
        · rintro ⟨h1, h2⟩; exact ⟨Or.inr h1, h2⟩
        · rintro ⟨h1 | h1, h2⟩
          · exact absurd (h1 ▸ hamem) h2
          · exact ⟨h1, h2⟩
      · have hanot : a ∉ seen := by simpa using hc
        simp only [dropDupFirstAux, hc, Bool.false_eq_true, if_false, List.mem_cons, ih,
          List.mem_cons]
        constructor
        · rintro (h | ⟨h1, h2⟩)
          · exact ⟨Or.inl h, h ▸ hanot⟩
          · exact ⟨Or.inr h1, fun hx => h2 (Or.inr hx)⟩
        · rintro ⟨h1 | h1, h2⟩
          · exact Or.inl h1
          · by_cases hxa : x = a
            · exact Or.inl hxa
            · refine Or.inr ⟨h1, ?_⟩
              intro hx
              rcases hx with hx1 | hx1
              · exact hxa hx1
              · exact h2 hx1

theorem nodup_dropDupFirstAux {α : Type} [DecidableEq α] :
    ∀ (l seen : List α), (dropDupFirstAux seen l).Nodup := by
  intro l
  induction l with
  | nil => intro seen; simp [dropDupFirstAux]
  | cons a as ih =>
      intro seen
      by_cases hc : seen.contains a
      · simpa only [dropDupFirstAux, hc, if_true] using ih seen
      · simp only [dropDupFirstAux, hc, Bool.false_eq_true, if_false, List.nodup_cons]
        refine ⟨?_, ih (a :: seen)⟩
        intro hmem
        exact ((mem_dropDupFirstAux as (a :: seen) a).mp hmem).2 (List.mem_cons_self a seen)

theorem dropDupFirstAux_eq_self {α : Type} [DecidableEq α] :
    ∀ {l seen : List α}, l.Nodup → (∀ x ∈ l, x ∉ seen) → dropDupFirstAux seen l = l := by
  intro l
  induction l with
  | nil => intro seen _ _; rfl
  | cons a as ih =>
      intro seen hnd hout
      obtain ⟨hhead, htail⟩ := List.pairwise_cons.mp hnd
      have hc : seen.contains a = false := by
        simpa using hout a (List.mem_cons_self a as)
      simp only [dropDupFirstAux, hc, Bool.false_eq_true, if_false]
      refine congrArg (a :: ·) (ih htail ?_)
      intro x hx hmem
      rcases List.mem_cons.mp hmem with h | h
      · exact hhead x hx h.symm
      · exact hout x (List.mem_cons_of_mem a hx) h

theorem dropDupFirst_idem {α : Type} [DecidableEq α] (l : List α) :
    dropDupFirst (dropDupFirst l) = dropDupFirst l :=
  dropDupFirstAux_eq_self (nodup_dropDupFirstAux l []) (fun x _ h => List.not_mem_nil x h)

theorem mem_dropDupFirst {α : Type} [DecidableEq α] {l : List α} {x : α} :
    x ∈ dropDupFirst l ↔ x ∈ l := by
  unfold dropDupFirst
  rw [mem_dropDupFirstAux]
  simp

namespace DataNormalization

theorem deduplicate_cols (df : Frame) : ((deduplicate df).1).cols = df.cols := by
  simp only [deduplicate]
  split_ifs <;> rfl

/-- C7.  Deduplication is idempotent: running `_deduplicate` on its own output
removes nothing, so the row count after two applications equals the row count
after one. -/
theorem C7_deduplicate_idempotent (df : Frame) :
    ((deduplicate (deduplicate df).1).1).nRows = ((deduplicate df).1).nRows := by
  by_cases hA : (dedupKeyCols.filter (fun c => df.cols.contains c)).isEmpty
  · by_cases hB : dupCount df.rows > 0
    · have hfirst : (deduplicate df).1 = { cols := df.cols, rows := dropDupFirst df.rows } := by
        simp only [deduplicate]
        rw [hA]
        simp [hB]
      have hdc : ¬ dupCount (dropDupFirst df.rows) > 0 := by
        unfold dupCount
        rw [dropDupFirst_idem]
        simp
      rw [hfirst]
      simp only [deduplicate]
      rw [hA]
      simp [hdc]
    · have hfirst : (deduplicate df).1 = df := by
        simp only [deduplicate]
        rw [hA]
        simp [hB]
      rw [hfirst, hfirst]
  · have hA2 : (dedupKeyCols.filter (fun c => df.cols.contains c)).isEmpty = false := by
      simpa using hA
    have hfirst : (deduplicate df).1 =
        { cols := df.cols,
          rows := dropDupLast (projKey df.cols
            (dedupKeyCols.filter (fun c => df.cols.contains c))) df.rows } := by
      simp only [deduplicate]
      rw [hA2]
      simp
    rw [hfirst]
    simp only [deduplicate]
    rw [hA2]
    simp [dropDupLast_idem]

end DataNormalization

/-! ## Closed evaluations settling the falsified / stateful claims -/

/-- C1 counterexample.  Normalizing a table with `clicks = 5` and
`impressions = 0` (and no `ctr` column) produces a `ctr` value of `infinity`,
not null: only CPA and ROAS guard their zero denominators. -/
theorem C1_counterexample :
    (DataNormalization.normalize DataNormalization.STANDARD_SCHEMA
        clicksNoImpressions).1.data.getCol "ctr" = some [.num .inf] ∧
    (Cell.num PyFloat.inf).isna = false := by decide

/-- C2 counterexample.  Campaign aggregation of one campaign with summed
clicks 5 and summed impressions 0 recomputes `ctr` as `infinity`, not null:
the CTR recomputation has no zero-denominator replacement. -/
theorem C2_counterexample :
    (DataMerger.aggregateByCampaign campaignZeroImpressions).data.getCol "impressions"
        = some [.num (.val 0)] ∧
    (DataMerger.aggregateByCampaign campaignZeroImpressions).data.getCol "ctr"
        = some [.num .inf] ∧
    (Cell.num PyFloat.inf).isna = false := by decide

/-- C3.  The normalization report computes `original_rows` *after* the pipeline:
for a two-row input whose rows are deduplicated to one, the report claims the
original row count was 1 (it also records `final_rows`, correctly, as the row
count of the returned table). -/
theorem C3_report_original_rows_bug :
    dupCampaignFrame.nRows = 2 ∧
    (DataNormalization.normalize DataNormalization.STANDARD_SCHEMA
        dupCampaignFrame).1.report.original_rows = 1 ∧
    (DataNormalization.normalize DataNormalization.STANDARD_SCHEMA
        dupCampaignFrame).1.report.final_rows =
      (DataNormalization.normalize DataNormalization.STANDARD_SCHEMA
        dupCampaignFrame).1.data.nRows := by decide

/-- C4 counterexample.  Two source columns (`clicks` and `link_clicks`) both
match synonyms of the canonical `clicks` field; the mapping stage renames both,
so the resulting table carries two columns named `clicks`. -/
theorem C4_counterexample :
    (DataNormalization.mapColumns DataNormalization.STANDARD_SCHEMA []
        collidingColsFrame).1.cols = ["clicks", "clicks"] ∧
    ¬ ((DataNormalization.mapColumns DataNormalization.STANDARD_SCHEMA []
        collidingColsFrame).1.cols.count "clicks" ≤ 1) := by decide

/-- C5 counterexample.  The table with columns Campaign, Clicks, Impressions,
Cost matches 4 of the 7 google_ads identifier substrings, so it is detected as
`google_ads` with confidence 4/7 — not as `unknown` with confidence 0. -/
theorem C5_counterexample :
    DataIngestion.detectPlatform ["Campaign", "Clicks", "Impressions", "Cost"]
        = ("google_ads", 4/7) ∧
    ¬ ((4 : ℚ)/7 < 1/5) ∧ ("google_ads" : String) ≠ "unknown" := by decide

/-- C6 counterexample.  `campaign` is a candidate key present in *every* input
table, yet the join-strategy merge fails: `_find_column` consults only the
first table, finds `date` there, and `date` is not common to all tables. -/
theorem C6_counterexample :
    (DataMerger.mergeDatasets [joinLeftFrame, joinRightFrame] none "join").isErr = true ∧
    "campaign" ∈ DataMerger.DATE_COLUMN_CANDIDATES ++ DataMerger.CAMPAIGN_COLUMN_CANDIDATES ∧
    (∀ df ∈ [joinLeftFrame, joinRightFrame], "campaign" ∈ df.cols) := by decide

/-- C8 counterexample.  Nulling one present `spend` value (a critical column)
*raises* the quality score from 75 to 80: the nulled cell destroys an exact
duplicate row, dropping the uniqueness penalty by 5, while the per-column
completeness penalty is already at its cap of 20. -/
theorem C8_counterexample :
    qualityT2 = updateCell qualityT1 "spend" 1 (.num .nan) ∧
    ((qualityT1.rows.getD 1 []).getD 1 (Cell.num .nan)).isna = false ∧
    DataQuality.checkQualityScore qualityT1 = 75 ∧
    DataQuality.checkQualityScore qualityT2 = 80 ∧
    DataQuality.checkQualityScore qualityT2 > DataQuality.checkQualityScore qualityT1 := by
  refine ⟨rfl, by decide, by decide, by decide, by decide⟩

/-- C10.  Custom column mappings leak across normalize calls: extending an
existing canonical field mutates the shared class-level synonym schema in
place, so a later call *without* custom mappings still maps a source column
that matches only the custom synonym — while a call against the pristine
schema leaves that column unmapped. -/
theorem C10_custom_mapping_leak :
    (DataNormalization.normalize
        (DataNormalization.normalize DataNormalization.STANDARD_SCHEMA
          unmatchedColFrame "unknown" "USD"
          [("campaign_name", ["my campaign col"])]).2
        customSynonymFrame).1.data.cols = ["campaign_name"] ∧
    (DataNormalization.normalize DataNormalization.STANDARD_SCHEMA
        customSynonymFrame).1.data.cols = ["My Campaign Col"] := by decide

/-! ## C5: platform-detection threshold behavior -/

namespace DataIngestion

theorem foldl_best_snd_ge (l : List (String × ℚ)) :
    ∀ b : String × ℚ, b.2 ≤ (l.foldl (fun b p => if p.2 > b.2 then p else b) b).2 := by
  induction l with
  | nil => intro b; exact le_refl _
  | cons a as ih =>
      intro b
      simp only [List.foldl_cons]
      by_cases h : a.2 > b.2
      · rw [if_pos h]
        exact le_of_lt (lt_of_lt_of_le h (ih a))
      · rw [if_neg h]
        exact ih b

theorem foldl_best_mem_or (l : List (String × ℚ)) :
    ∀ b : String × ℚ,
      l.foldl (fun b p => if p.2 > b.2 then p else b) b = b ∨
      l.foldl (fun b p => if p.2 > b.2 then p else b) b ∈ l := by
  induction l with
  | nil => intro b; exact Or.inl rfl
  | cons a as ih =>
      intro b
      simp only [List.foldl_cons]
      by_cases h : a.2 > b.2
      · rw [if_pos h]
        rcases ih a with he | hm
        · refine Or.inr ?_
          rw [he]
          exact List.mem_cons_self a as
        · exact Or.inr (List.mem_cons_of_mem a hm)
      · rw [if_neg h]
        rcases ih b with he | hm
        · exact Or.inl he
        · exact Or.inr (List.mem_cons_of_mem a hm)

/-- C5.  When every platform's identifier-match fraction is below the 0.2
threshold, detection reports `('unknown', 0.0)` (the best score picked by the
arg-max fold is itself below the threshold). -/
theorem C5_detect_unknown (cols : List String)
    (h : ∀ p ∈ platformScores cols, p.2 < 1/5) :
    detectPlatform cols = ("unknown", 0) := by
  have hb : ((platformScores cols).foldl
      (fun b p => if p.2 > b.2 then p else b) ("", 0)).2 < 1/5 := by
    rcases foldl_best_mem_or (platformScores cols) ("", 0) with he | hm
    · rw [he]; norm_num
    · exact h _ hm
  simp only [detectPlatform]
  rw [if_pos hb]

/-- Witness for `C5_detect_unknown`: a single unrecognized column gives every
platform score 0. -/
theorem C5_detect_unknown_witness :
    (∀ p ∈ platformScores ["zzz"], p.2 < 1/5) ∧
    detectPlatform ["zzz"] = ("unknown", 0) :=
  ⟨by decide, C5_detect_unknown ["zzz"] (by decide)⟩

end DataIngestion

/-! ## C4: canonical-name multiplicity after column mapping -/

theorem count_map_eq_countP {α β : Type} [DecidableEq α] [DecidableEq β]
    (g : α → β) (y : β) : ∀ l : List α, (l.map g).count y = l.countP (fun c => g c = y) := by
  intro l
  induction l with
  | nil => rfl
  | cons a as ih =>
      simp only [List.map_cons, List.count_cons, List.countP_cons, ih, beq_iff_eq,
        decide_eq_true_eq]

/-- C4.  The mapping stage renames every source column independently, so a
canonical name is carried by at most one column of the canonicalized table
exactly when at most one source column maps to it (two source columns matching
synonyms of the same canonical field each get renamed to it). -/
theorem C4_unique_canonical_target (schema : DataNormalization.Schema)
    (custom : List (String × List String)) (df : Frame) (f : String)
    (h : df.cols.countP
      (fun c => DataNormalization.targetName
        (DataNormalization.allMappingsOf schema custom) c = f) ≤ 1) :
    ((DataNormalization.mapColumns schema custom df).1.cols.count f) ≤ 1 := by
  have hcols : (DataNormalization.mapColumns schema custom df).1.cols
      = df.cols.map (DataNormalization.targetName
        (DataNormalization.allMappingsOf schema custom)) := rfl
  rw [hcols, count_map_eq_countP]
  exact h

/-- Witness for `C4_unique_canonical_target`: `clicks` and `spend` map to two
distinct canonical fields, so each canonical name is carried once. -/
theorem C4_unique_canonical_target_witness :
    ((⟨["clicks", "spend"], []⟩ : Frame).cols.countP
      (fun c => DataNormalization.targetName
        (DataNormalization.allMappingsOf DataNormalization.STANDARD_SCHEMA []) c
          = "clicks") ≤ 1) ∧
    ((DataNormalization.mapColumns DataNormalization.STANDARD_SCHEMA []
      (⟨["clicks", "spend"], []⟩ : Frame)).1.cols.count "clicks" ≤ 1) :=
  ⟨by decide, C4_unique_canonical_target DataNormalization.STANDARD_SCHEMA []
    ⟨["clicks", "spend"], []⟩ "clicks" (by decide)⟩

/-! ## C9: currency conversion round trip -/

namespace DataNormalization

theorem mem_of_lookup_eq_some {l : List (String × ℚ)} {k : String} {v : ℚ} :
    l.lookup k = some v → (k, v) ∈ l := by
  induction l with
  | nil => intro h; simp [List.lookup] at h
  | cons p t ih =>
      intro h
      rw [List.lookup] at h
      by_cases he : k == p.1
      · rw [he] at h
        have hk : k = p.1 := by simpa using he
        have hv : p.2 = v := by simpa using h
        exact List.mem_cons.mpr (Or.inl (by rw [hk, ← hv]))
      · rw [Bool.not_eq_true] at he
        rw [he] at h
        exact List.mem_cons_of_mem p (ih h)

/-- One-row evaluation of `_normalize_currency` for a supported target. -/
theorem normalizeCurrency_one_row (target : String) (rt : ℚ)
    (ht : CURRENCY_RATES.lookup target = some rt) (c cur : Cell) :
    (normalizeCurrency ⟨["spend", "currency"], [[c, cur]]⟩ target).1
      = ⟨["spend", "currency"], [[convertCell rt cur c, cur]]⟩ := by
  unfold normalizeCurrency
  rw [ht]
  rfl

/-- C9.  Converting a monetary value from row-currency A to target B and the
result from row-currency B back to target A reproduces the value exactly
(the static rates are positive and the conversion applies no rounding);
rows whose currency cell is null or whose code is not in the rate table are
left unconverted. -/
theorem C9_currency_roundtrip (v ra rb : ℚ) (A B : String)
    (hA : CURRENCY_RATES.lookup A = some ra)
    (hB : CURRENCY_RATES.lookup B = some rb)
    (hAu : pyUpper A = A) (hBu : pyUpper B = B) :
    ((normalizeCurrency
      ⟨["spend", "currency"],
        [[(((normalizeCurrency ⟨["spend", "currency"],
              [[.num (.val v), .str A]]⟩ B).1.getCol "spend").getD []).getD 0 (.num .nan),
          .str B]]⟩ A).1.getCol "spend" = some [.num (.val v)]) ∧
    (∀ (c : Cell) (u : String), CURRENCY_RATES.lookup (pyUpper u) = none →
      (normalizeCurrency ⟨["spend", "currency"], [[c, .str u]]⟩ B).1.getCol "spend"
        = some [c]) ∧
    (∀ c : Cell,
      (normalizeCurrency ⟨["spend", "currency"], [[c, .num .nan]]⟩ B).1.getCol "spend"
        = some [c]) := by
  have hposAll : ∀ p ∈ CURRENCY_RATES, 0 < p.2 := by decide
  have hra : 0 < ra := hposAll _ (mem_of_lookup_eq_some hA)
  have hrb : 0 < rb := hposAll _ (mem_of_lookup_eq_some hB)
  refine ⟨?_, ?_, ?_⟩
  · rw [normalizeCurrency_one_row B rb hB]
    have hc1 : convertCell rb (Cell.str A) (Cell.num (.val v))
        = Cell.num (.val (v * ra / rb)) := by
      unfold convertCell
      simp only [Cell.isna, Bool.false_eq_true, if_false]
      rw [hAu, hA]
      simp only [Cell.toNum, PyFloat.mul, PyFloat.div]
      rw [if_neg (ne_of_gt hrb)]
    have hw : (((Frame.mk ["spend", "currency"]
          [[convertCell rb (Cell.str A) (Cell.num (.val v)), Cell.str A]]).getCol
          "spend").getD []).getD 0 (Cell.num .nan)
        = Cell.num (.val (v * ra / rb)) := by
      rw [hc1]
      rfl
    rw [hw, normalizeCurrency_one_row A ra hA]
    have hc2 : convertCell ra (Cell.str B) (Cell.num (.val (v * ra / rb)))
        = Cell.num (.val v) := by
      unfold convertCell
      simp only [Cell.isna, Bool.false_eq_true, if_false]
      rw [hBu, hB]
      simp only [Cell.toNum, PyFloat.mul, PyFloat.div]
      rw [if_neg (ne_of_gt hra)]
      have harith : v * ra / rb * rb / ra = v := by
        field_simp
      rw [harith]
    rw [hc2]
    rfl
  · intro c u hu
    rw [normalizeCurrency_one_row B rb hB]
    have hc : convertCell rb (Cell.str u) c = c := by
      unfold convertCell
      simp only [Cell.isna, Bool.false_eq_true, if_false]
      rw [hu]
    rw [hc]
    rfl
  · intro c
    rw [normalizeCurrency_one_row B rb hB]
    rfl

/-- Witness for `C9_currency_roundtrip`: EUR to GBP and back at 10 units. -/
theorem C9_currency_roundtrip_witness :
    CURRENCY_RATES.lookup "EUR" = some (108/100) ∧
    CURRENCY_RATES.lookup "GBP" = some (127/100) ∧
    ((normalizeCurrency
      ⟨["spend", "currency"],
        [[(((normalizeCurrency ⟨["spend", "currency"],
              [[.num (.val 10), .str "EUR"]]⟩ "GBP").1.getCol "spend").getD []).getD 0
                (.num .nan),
          .str "GBP"]]⟩ "EUR").1.getCol "spend" = some [.num (.val 10)]) :=
  ⟨by decide, by decide,
    (C9_currency_roundtrip 10 (108/100) (127/100) "EUR" "GBP"
      (by decide) (by decide) (by decide) (by decide)).1⟩

end DataNormalization

/-! ## Frame kit: how `setCol` interacts with `getCol`, `hasCol`, lengths -/

theorem findIdxA_eq_none_iff {α : Type} {p : α → Bool} :
    ∀ {l : List α}, findIdxA p l = none ↔ ∀ x ∈ l, p x = false := by
  intro l
  induction l with
  | nil => simp [findIdxA]
  | cons a as ih =>
      by_cases h : p a
      · simp [findIdxA, h]
      · simp only [findIdxA, h, Bool.false_eq_true, if_false, Option.map_eq_none',
          List.mem_cons]
        constructor
        · intro hn x hx
          rcases hx with hx | hx
          · rw [hx]; exact Bool.eq_false_iff.mpr h
          · exact (ih.mp hn) x hx
        · intro hall
          exact ih.mpr (fun x hx => hall x (Or.inr hx))

theorem findIdxA_eq_some_getElem {α : Type} {p : α → Bool} :
    ∀ {l : List α} {i : Nat}, findIdxA p l = some i → ∃ x, l[i]? = some x ∧ p x = true := by
  intro l
  induction l with
  | nil => intro i h; simp [findIdxA] at h
  | cons a as ih =>
      intro i h
      by_cases hp : p a
      · simp only [findIdxA, hp, if_true, Option.some_inj] at h
        subst h
        exact ⟨a, by simp, hp⟩
      · simp only [findIdxA, hp, Bool.false_eq_true, if_false, Option.map_eq_some'] at h
        obtain ⟨j, hj, hji⟩ := h
        obtain ⟨x, hx, hpx⟩ := ih hj
        refine ⟨x, ?_, hpx⟩
        rw [← hji]
        simpa using hx

theorem findIdxA_lt_length {α : Type} {p : α → Bool} {l : List α} {i : Nat}
    (h : findIdxA p l = some i) : i < l.length := by
  obtain ⟨x, hx, _⟩ := findIdxA_eq_some_getElem h
  exact (List.getElem?_eq_some.mp hx).1

theorem findIdxA_append_left {α : Type} {p : α → Bool} :
    ∀ {l1 : List α} (l2 : List α) {i : Nat},
      findIdxA p l1 = some i → findIdxA p (l1 ++ l2) = some i := by
  intro l1
  induction l1 with
  | nil => intro l2 i h; simp [findIdxA] at h
  | cons a as ih =>
      intro l2 i h
      simp only [findIdxA] at h
      simp only [List.cons_append, findIdxA, List.append_eq]
      by_cases hp : p a
      · rw [if_pos hp] at h ⊢
        exact h
      · rw [if_neg hp] at h ⊢
        cases hj : findIdxA p as with
        | none => rw [hj] at h; simp at h
        | some j =>
            rw [hj] at h
            rw [ih l2 hj]
            simpa using h

theorem findIdxA_append_right {α : Type} {p : α → Bool} :
    ∀ {l1 : List α} (l2 : List α), findIdxA p l1 = none →
      findIdxA p (l1 ++ l2) = (findIdxA p l2).map (fun i => i + l1.length) := by
  intro l1
  induction l1 with
  | nil =>
      intro l2 _
      simp [findIdxA]
  | cons a as ih =>
      intro l2 h
      simp only [findIdxA] at h
      by_cases hp : p a
      · rw [if_pos hp] at h
        exact absurd h (by simp)
      · rw [if_neg hp] at h
        have h2 : findIdxA p as = none := by
          cases hj : findIdxA p as with
          | none => rfl
          | some j => rw [hj] at h; simp at h
        simp only [List.cons_append, findIdxA, List.append_eq]
        rw [if_neg hp, ih l2 h2]
        cases findIdxA p l2 with
        | none => rfl
        | some j =>
            simp only [Option.map_some', Option.some_inj, List.length_cons]
            omega

theorem Frame.colIdx_isSome_of_hasCol {f : Frame} {n : String} (h : f.hasCol n = true) :
    ∃ i, f.colIdx n = some i := by
  unfold Frame.hasCol at h
  unfold Frame.colIdx
  cases hidx : findIdxA (fun c => c = n) f.cols with
  | some i => exact ⟨i, rfl⟩
  | none =>
      exfalso
      have hall := findIdxA_eq_none_iff.mp hidx
      have hmem : n ∈ f.cols := by simpa using h
      have := hall n hmem
      simp at this

theorem Frame.colIdx_eq_none_of_not_hasCol {f : Frame} {n : String} (h : f.hasCol n = false) :
    f.colIdx n = none := by
  have hnot : n ∉ f.cols := by
    rw [Frame.hasCol] at h
    simpa using h
  unfold Frame.colIdx
  rw [findIdxA_eq_none_iff]
  intro x hx
  simp only [decide_eq_false_iff_not]
  intro he
  exact hnot (he ▸ hx)

theorem Frame.colIdx_getElem {f : Frame} {n : String} {i : Nat} (h : f.colIdx n = some i) :
    f.cols[i]? = some n := by
  obtain ⟨x, hx, hpx⟩ := findIdxA_eq_some_getElem h
  have hpx2 : x = n := by simpa using hpx
  rw [hpx2] at hx
  exact hx

theorem Frame.getCol_length {f : Frame} {n : String} {l : List Cell}
    (h : f.getCol n = some l) : l.length = f.nRows := by
  unfold Frame.getCol at h
  cases hidx : f.colIdx n with
  | none => rw [hidx] at h; simp at h
  | some i =>
      rw [hidx] at h
      simp only [Option.map_some', Option.some_inj] at h
      rw [← h]
      simp [Frame.nRows]

theorem zipWith_getElem? {α β γ : Type} (f : α → β → γ) :
    ∀ (la : List α) (lb : List β) (n : Nat) (u : α) (v : β),
      la[n]? = some u → lb[n]? = some v → (List.zipWith f la lb)[n]? = some (f u v) := by
  intro la
  induction la with
  | nil => intro lb n u v hx; simp at hx
  | cons a as ih =>
      intro lb n u v hx hy
      cases lb with
      | nil => simp at hy
      | cons b bs =>
          cases n with
          | zero =>
              simp only [List.getElem?_cons_zero, Option.some_inj] at hx hy
              simp [hx, hy]
          | succ n =>
              simp only [List.getElem?_cons_succ] at hx hy
              simpa using ih bs n u v hx hy

theorem mem_zipWith_exists {α β γ : Type} {f : α → β → γ} :
    ∀ {l1 : List α} {l2 : List β} {c : γ}, c ∈ List.zipWith f l1 l2 →
      ∃ a b, a ∈ l1 ∧ b ∈ l2 ∧ c = f a b := by
  intro l1
  induction l1 with
  | nil => intro l2 c h; simp at h
  | cons a as ih =>
      intro l2 c h
      cases l2 with
      | nil => simp at h
      | cons b bs =>
          simp only [List.zipWith_cons_cons, List.mem_cons] at h
          rcases h with h | h
          · exact ⟨a, b, List.mem_cons_self a as, List.mem_cons_self b bs, h⟩
          · obtain ⟨x, y, hx, hy, he⟩ := ih h
            exact ⟨x, y, List.mem_cons_of_mem a hx, List.mem_cons_of_mem b hy, he⟩

theorem zipWith_map_getD_set_ne {i j : Nat} (d : Cell) (hij : i ≠ j) :
    ∀ (rows : List (List Cell)) (data : List Cell), rows.length = data.length →
      (List.zipWith (fun r v => r.set i v) rows data).map (fun r => r.getD j d)
        = rows.map (fun r => r.getD j d) := by
  intro rows
  induction rows with
  | nil => intro data _; simp
  | cons r rs ih =>
      intro data hlen
      cases data with
      | nil => simp at hlen
      | cons v vs =>
          simp only [List.length_cons, Nat.succ_inj] at hlen
          simp only [List.zipWith_cons_cons, List.map_cons, ih vs hlen]
          congr 1
          simp only [List.getD_eq_getElem?_getD, List.getElem?_set_ne hij]

theorem zipWith_map_getD_set_self {i : Nat} (d : Cell) :
    ∀ (rows : List (List Cell)) (data : List Cell), rows.length = data.length →
      (∀ r ∈ rows, i < r.length) →
      (List.zipWith (fun r v => r.set i v) rows data).map (fun r => r.getD i d) = data := by
  intro rows
  induction rows with
  | nil => intro data hlen _; simp at hlen ⊢; exact List.eq_nil_of_length_eq_zero hlen.symm
  | cons r rs ih =>
      intro data hlen hlt
      cases data with
      | nil => simp at hlen
      | cons v vs =>
          simp only [List.length_cons, Nat.succ_inj] at hlen
          simp only [List.zipWith_cons_cons, List.map_cons,
            ih vs hlen (fun x hx => hlt x (List.mem_cons_of_mem r hx))]
          congr 1
          have hi : i < r.length := hlt r (List.mem_cons_self r rs)
          simp only [List.getD_eq_getElem?_getD, List.getElem?_set_eq_of_lt v hi,
            Option.getD_some]

theorem zipWith_map_getD_append_lt {j : Nat} (d : Cell) :
    ∀ (rows : List (List Cell)) (data : List Cell), rows.length = data.length →
      (∀ r ∈ rows, j < r.length) →
      (List.zipWith (fun r v => r ++ [v]) rows data).map (fun r => r.getD j d)
        = rows.map (fun r => r.getD j d) := by
  intro rows
  induction rows with
  | nil => intro data _ _; simp
  | cons r rs ih =>
      intro data hlen hlt
      cases data with
      | nil => simp at hlen
      | cons v vs =>
          simp only [List.length_cons, Nat.succ_inj] at hlen
          simp only [List.zipWith_cons_cons, List.map_cons,
            ih vs hlen (fun x hx => hlt x (List.mem_cons_of_mem r hx))]
          congr 1
          have hj : j < r.length := hlt r (List.mem_cons_self r rs)
          simp only [List.getD_eq_getElem?_getD, List.getElem?_append_left hj]

theorem zipWith_map_getD_append_self {L : Nat} (d : Cell) :
    ∀ (rows : List (List Cell)) (data : List Cell), rows.length = data.length →
      (∀ r ∈ rows, r.length = L) →
      (List.zipWith (fun r v => r ++ [v]) rows data).map (fun r => r.getD L d) = data := by
  intro rows
  induction rows with
  | nil => intro data hlen _; simp at hlen ⊢; exact List.eq_nil_of_length_eq_zero hlen.symm
  | cons r rs ih =>
      intro data hlen hL
      cases data with
      | nil => simp at hlen
      | cons v vs =>
          simp only [List.length_cons, Nat.succ_inj] at hlen
          simp only [List.zipWith_cons_cons, List.map_cons,
            ih vs hlen (fun x hx => hL x (List.mem_cons_of_mem r hx))]
          congr 1
          have hr : r.length = L := hL r (List.mem_cons_self r rs)
          rw [← hr]
          simp [List.getD_eq_getElem?_getD]

theorem Frame.setCol_nRows {f : Frame} {n : String} {data : List Cell}
    (hlen : data.length = f.nRows) : (f.setCol n data).nRows = f.nRows := by
  unfold Frame.setCol
  unfold Frame.nRows at hlen ⊢
  cases f.colIdx n with
  | some i => simp [List.length_zipWith, hlen]
  | none => simp [List.length_zipWith, hlen]

theorem Frame.setCol_WF {f : Frame} {n : String} {data : List Cell}
    (hwf : f.WF) (hlen : data.length = f.nRows) : (f.setCol n data).WF := by
  unfold Frame.setCol
  cases hidx : f.colIdx n with
  | some i =>
      intro r hr
      obtain ⟨a, b, ha, _, he⟩ := mem_zipWith_exists hr
      subst he
      simpa using hwf a ha
  | none =>
      intro r hr
      obtain ⟨a, b, ha, _, he⟩ := mem_zipWith_exists hr
      subst he
      simp only [List.length_append, List.length_singleton, List.length_cons]
      simp [hwf a ha]

theorem Frame.hasCol_setCol_ne {f : Frame} {n m : String} {data : List Cell}
    (hne : m ≠ n) : (f.setCol n data).hasCol m = f.hasCol m := by
  unfold Frame.setCol Frame.hasCol
  cases f.colIdx n with
  | some i => rfl
  | none =>
      simp [hne]

theorem Frame.getCol_setCol_self {f : Frame} {n : String} {data : List Cell}
    (hwf : f.WF) (hlen : data.length = f.nRows) : (f.setCol n data).getCol n = some data := by
  unfold Frame.getCol
  cases hidx : f.colIdx n with
  | some i =>
      have hcols : (f.setCol n data).cols = f.cols := by
        unfold Frame.setCol
        rw [hidx]
      have hidx2 : (f.setCol n data).colIdx n = some i := by
        unfold Frame.colIdx
        rw [hcols]
        exact hidx
      rw [hidx2]
      have hrows : (f.setCol n data).rows
          = List.zipWith (fun r v => r.set i v) f.rows data := by
        unfold Frame.setCol
        rw [hidx]
      rw [hrows]
      simp only [Option.map_some', Option.some_inj]
      have hi : ∀ r ∈ f.rows, i < r.length := by
        intro r hr
        rw [hwf r hr]
        exact findIdxA_lt_length hidx
      exact zipWith_map_getD_set_self (Cell.num .nan) f.rows data hlen.symm hi
  | none =>
      have hcols : (f.setCol n data).cols = f.cols ++ [n] := by
        unfold Frame.setCol
        rw [hidx]
      have hone : findIdxA (fun c => c = n) [n] = some 0 := by simp [findIdxA]
      have hidx2 : (f.setCol n data).colIdx n = some f.cols.length := by
        unfold Frame.colIdx
        rw [hcols, findIdxA_append_right [n] hidx, hone]
        simp
      rw [hidx2]
      have hrows : (f.setCol n data).rows
          = List.zipWith (fun r v => r ++ [v]) f.rows data := by
        unfold Frame.setCol
        rw [hidx]
      rw [hrows]
      simp only [Option.map_some', Option.some_inj]
      exact zipWith_map_getD_append_self (Cell.num .nan) f.rows data hlen.symm hwf

theorem Frame.getCol_setCol_ne {f : Frame} {n m : String} {data : List Cell}
    (hne : m ≠ n) (hwf : f.WF) (hlen : data.length = f.nRows) :
    (f.setCol n data).getCol m = f.getCol m := by
  unfold Frame.getCol
  cases hidx : f.colIdx n with
  | some i =>
      have hcols : (f.setCol n data).cols = f.cols := by
        unfold Frame.setCol
        rw [hidx]
      have hidx2 : (f.setCol n data).colIdx m = f.colIdx m := by
        unfold Frame.colIdx
        rw [hcols]
      rw [hidx2]
      cases hm : f.colIdx m with
      | none => rfl
      | some j =>
          have hij : i ≠ j := by
            intro he
            have h1 := Frame.colIdx_getElem hidx
            have h2 := Frame.colIdx_getElem hm
            rw [he] at h1
            rw [h1] at h2
            have hnm : n = m := by simpa using h2
            exact hne hnm.symm
          have hrows : (f.setCol n data).rows
              = List.zipWith (fun r v => r.set i v) f.rows data := by
            unfold Frame.setCol
            rw [hidx]
          rw [hrows]
          simp only [Option.map_some', Option.some_inj]
          exact zipWith_map_getD_set_ne (Cell.num .nan) hij f.rows data hlen.symm
  | none =>
      have hcols : (f.setCol n data).cols = f.cols ++ [n] := by
        unfold Frame.setCol
        rw [hidx]
      have hrows : (f.setCol n data).rows
          = List.zipWith (fun r v => r ++ [v]) f.rows data := by
        unfold Frame.setCol
        rw [hidx]
      cases hm : f.colIdx m with
      | none =>
          have hnone : findIdxA (fun c => c = m) [n] = none := by
            simp [findIdxA, hne.symm]
          have hidx2 : (f.setCol n data).colIdx m = none := by
            unfold Frame.colIdx
            rw [hcols]
            unfold Frame.colIdx at hm
            rw [findIdxA_append_right [n] hm, hnone]
            rfl
          rw [hidx2]
          rfl
      | some j =>
          have hidx2 : (f.setCol n data).colIdx m = some j := by
            unfold Frame.colIdx
            rw [hcols]
            unfold Frame.colIdx at hm
            exact findIdxA_append_left [n] hm
          rw [hidx2, hrows]
          simp only [Option.map_some', Option.some_inj]
          have hj : ∀ r ∈ f.rows, j < r.length := by
            intro r hr
            rw [hwf r hr]
            exact findIdxA_lt_length hm
          exact zipWith_map_getD_append_lt (Cell.num .nan) f.rows data hlen.symm hj

/-! ## C1: exact elementwise behavior of the derived-metric backfill -/

namespace DataNormalization

theorem ctrOp_num (c i : ℚ) :
    ctrOp (Cell.num (.val c)) (Cell.num (.val i))
      = Cell.num (if i = 0 then
          (if c = 0 then PyFloat.nan else if 0 < c then PyFloat.inf else PyFloat.ninf)
        else PyFloat.val (PyFloat.roundQ4 (c / i * 100))) := by
  unfold ctrOp Cell.cdiv Cell.cmul Cell.cround4 Cell.toNum
  by_cases hi : i = 0
  · by_cases hc : c = 0
    · norm_num [PyFloat.div, PyFloat.mul, PyFloat.round4, hi, hc]
    · by_cases hcp : 0 < c
      · norm_num [PyFloat.div, PyFloat.mul, PyFloat.round4, hi, hc, hcp]
      · norm_num [PyFloat.div, PyFloat.mul, PyFloat.round4, hi, hc, hcp]
  · norm_num [PyFloat.div, PyFloat.mul, PyFloat.round4, hi]

theorem cpcOp_num (s c : ℚ) :
    cpcOp (Cell.num (.val s)) (Cell.num (.val c))
      = Cell.num (if c = 0 then
          (if s = 0 then PyFloat.nan else if 0 < s then PyFloat.inf else PyFloat.ninf)
        else PyFloat.val (PyFloat.roundQ4 (s / c))) := by
  unfold cpcOp Cell.cdiv Cell.cround4 Cell.toNum
  by_cases hc : c = 0
  · by_cases hs : s = 0
    · norm_num [PyFloat.div, PyFloat.round4, hc, hs]
    · by_cases hsp : 0 < s
      · norm_num [PyFloat.div, PyFloat.round4, hc, hs, hsp]
      · norm_num [PyFloat.div, PyFloat.round4, hc, hs, hsp]
  · norm_num [PyFloat.div, PyFloat.round4, hc]

theorem cpmOp_num (s i : ℚ) :
    cpmOp (Cell.num (.val s)) (Cell.num (.val i))
      = Cell.num (if i = 0 then
          (if s = 0 then PyFloat.nan else if 0 < s then PyFloat.inf else PyFloat.ninf)
        else PyFloat.val (PyFloat.roundQ4 (s / i * 1000))) := by
  unfold cpmOp Cell.cdiv Cell.cmul Cell.cround4 Cell.toNum
  by_cases hi : i = 0
  · by_cases hs : s = 0
    · norm_num [PyFloat.div, PyFloat.mul, PyFloat.round4, hi, hs]
    · by_cases hsp : 0 < s
      · norm_num [PyFloat.div, PyFloat.mul, PyFloat.round4, hi, hs, hsp]
      · norm_num [PyFloat.div, PyFloat.mul, PyFloat.round4, hi, hs, hsp]
  · norm_num [PyFloat.div, PyFloat.mul, PyFloat.round4, hi]

theorem cpaOp_num (s x : ℚ) :
    cpaOp (Cell.num (.val s)) (Cell.num (.val x))
      = Cell.num (if x = 0 then PyFloat.nan
        else PyFloat.val (PyFloat.roundQ4 (s / x))) := by
  unfold cpaOp Cell.cdiv Cell.cround4 Cell.creplaceZeroNan Cell.toNum
  by_cases hx : x = 0
  · norm_num [PyFloat.replaceZeroNan, PyFloat.div, PyFloat.round4, hx]
  · norm_num [PyFloat.replaceZeroNan, PyFloat.div, PyFloat.round4, hx]

theorem roasOp_num (w s : ℚ) :
    roasOp (Cell.num (.val w)) (Cell.num (.val s))
      = Cell.num (if s = 0 then PyFloat.nan
        else PyFloat.val (PyFloat.roundQ4 (w / s))) := by
  unfold roasOp Cell.cdiv Cell.cround4 Cell.creplaceZeroNan Cell.toNum
  by_cases hs : s = 0
  · norm_num [PyFloat.replaceZeroNan, PyFloat.div, PyFloat.round4, hs]
  · norm_num [PyFloat.replaceZeroNan, PyFloat.div, PyFloat.round4, hs]

end DataNormalization

namespace DataNormalization

theorem deriveStep_eq {df : Frame} {t a b : String} {op : Cell → Cell → Cell}
    {ca cb : List Cell}
    (ht : df.hasCol t = false) (ha : df.getCol a = some ca) (hb : df.getCol b = some cb) :
    ∀ L, deriveStep df t a b op L = (df.setCol t (List.zipWith op ca cb), [L]) := by
  intro L
  unfold deriveStep
  rw [ht, ha, hb]
  simp

theorem deriveStep_skip {df : Frame} {t a b : String} {op : Cell → Cell → Cell}
    (ht : df.hasCol t = true) :
    ∀ L, deriveStep df t a b op L = (df, []) := by
  intro L
  unfold deriveStep
  rw [ht]
  simp

theorem zipLen {op : Cell → Cell → Cell} {l1 l2 : List Cell} {n : Nat}
    (h1 : l1.length = n) (h2 : l2.length = n) : (List.zipWith op l1 l2).length = n := by
  simp [List.length_zipWith, h1, h2]

/-- C1.  Elementwise specification of `_calculate_derived_metrics` on numeric
inputs: each absent metric is added from its inputs, rounded to 4 decimals.
CPA and ROAS yield null on a zero denominator, while CTR, CPC and CPM yield
null only for 0/0 and otherwise signed infinity. -/
theorem C1_derived_metrics
    (df : Frame) (k : Nat) (hwf : df.WF)
    (h1 : df.hasCol "ctr" = false) (h2 : df.hasCol "cpc" = false)
    (h3 : df.hasCol "cpm" = false) (h4 : df.hasCol "cpa" = false)
    (h5 : df.hasCol "roas" = false)
    (cl im sp cv vv : List Cell)
    (hcl : df.getCol "clicks" = some cl) (him : df.getCol "impressions" = some im)
    (hsp : df.getCol "spend" = some sp) (hcv : df.getCol "conversions" = some cv)
    (hvv : df.getCol "conversion_value" = some vv)
    (c i s x w : ℚ)
    (hclk : cl[k]? = some (.num (.val c))) (himk : im[k]? = some (.num (.val i)))
    (hspk : sp[k]? = some (.num (.val s))) (hcvk : cv[k]? = some (.num (.val x)))
    (hvvk : vv[k]? = some (.num (.val w))) :
    (∃ lc, (calcDerivedMetrics df).1.getCol "ctr" = some lc ∧
      lc[k]? = some (.num (if i = 0 then
          (if c = 0 then PyFloat.nan else if 0 < c then PyFloat.inf else PyFloat.ninf)
        else PyFloat.val (PyFloat.roundQ4 (c / i * 100))))) ∧
    (∃ lc, (calcDerivedMetrics df).1.getCol "cpc" = some lc ∧
      lc[k]? = some (.num (if c = 0 then
          (if s = 0 then PyFloat.nan else if 0 < s then PyFloat.inf else PyFloat.ninf)
        else PyFloat.val (PyFloat.roundQ4 (s / c))))) ∧
    (∃ lc, (calcDerivedMetrics df).1.getCol "cpm" = some lc ∧
      lc[k]? = some (.num (if i = 0 then
          (if s = 0 then PyFloat.nan else if 0 < s then PyFloat.inf else PyFloat.ninf)
        else PyFloat.val (PyFloat.roundQ4 (s / i * 1000))))) ∧
    (∃ lc, (calcDerivedMetrics df).1.getCol "cpa" = some lc ∧
      lc[k]? = some (.num (if x = 0 then PyFloat.nan
        else PyFloat.val (PyFloat.roundQ4 (s / x))))) ∧
    (∃ lc, (calcDerivedMetrics df).1.getCol "roas" = some lc ∧
      lc[k]? = some (.num (if s = 0 then PyFloat.nan
        else PyFloat.val (PyFloat.roundQ4 (w / s))))) := by
  have hLcl := Frame.getCol_length hcl
  have hLim := Frame.getCol_length him
  have hLsp := Frame.getCol_length hsp
  have hLcv := Frame.getCol_length hcv
  have hLvv := Frame.getCol_length hvv
  -- step 1: ctr
  have hlen1 : (List.zipWith ctrOp cl im).length = df.nRows := zipLen hLcl hLim
  have e1 := @deriveStep_eq _ _ _ _ ctrOp _ _ h1 hcl him
  set d1 := df.setCol "ctr" (List.zipWith ctrOp cl im) with hd1
  have hwf1 : d1.WF := Frame.setCol_WF hwf hlen1
  have hn1 : d1.nRows = df.nRows := Frame.setCol_nRows hlen1
  have h2a : d1.hasCol "cpc" = false := by
    rw [hd1, Frame.hasCol_setCol_ne (by decide)]; exact h2
  have h3a : d1.hasCol "cpm" = false := by
    rw [hd1, Frame.hasCol_setCol_ne (by decide)]; exact h3
  have h4a : d1.hasCol "cpa" = false := by
    rw [hd1, Frame.hasCol_setCol_ne (by decide)]; exact h4
  have h5a : d1.hasCol "roas" = false := by
    rw [hd1, Frame.hasCol_setCol_ne (by decide)]; exact h5
  have hcl1 : d1.getCol "clicks" = some cl := by
    rw [hd1, Frame.getCol_setCol_ne (by decide) hwf hlen1]; exact hcl
  have him1 : d1.getCol "impressions" = some im := by
    rw [hd1, Frame.getCol_setCol_ne (by decide) hwf hlen1]; exact him
  have hsp1 : d1.getCol "spend" = some sp := by
    rw [hd1, Frame.getCol_setCol_ne (by decide) hwf hlen1]; exact hsp
  have hcv1 : d1.getCol "conversions" = some cv := by
    rw [hd1, Frame.getCol_setCol_ne (by decide) hwf hlen1]; exact hcv
  have hvv1 : d1.getCol "conversion_value" = some vv := by
    rw [hd1, Frame.getCol_setCol_ne (by decide) hwf hlen1]; exact hvv
  have hctr1 : d1.getCol "ctr" = some (List.zipWith ctrOp cl im) :=
    Frame.getCol_setCol_self hwf hlen1
  -- step 2: cpc
  have hlen2 : (List.zipWith cpcOp sp cl).length = d1.nRows := by
    rw [hn1]; exact zipLen hLsp hLcl
  have e2 := @deriveStep_eq _ _ _ _ cpcOp _ _ h2a hsp1 hcl1
  set d2 := d1.setCol "cpc" (List.zipWith cpcOp sp cl) with hd2
  have hwf2 : d2.WF := Frame.setCol_WF hwf1 hlen2
  have hn2 : d2.nRows = df.nRows := by rw [hd2, Frame.setCol_nRows hlen2, hn1]
  have h3b : d2.hasCol "cpm" = false := by
    rw [hd2, Frame.hasCol_setCol_ne (by decide)]; exact h3a
  have h4b : d2.hasCol "cpa" = false := by
    rw [hd2, Frame.hasCol_setCol_ne (by decide)]; exact h4a
  have h5b : d2.hasCol "roas" = false := by
    rw [hd2, Frame.hasCol_setCol_ne (by decide)]; exact h5a
  have him2 : d2.getCol "impressions" = some im := by
    rw [hd2, Frame.getCol_setCol_ne (by decide) hwf1 hlen2]; exact him1
  have hsp2 : d2.getCol "spend" = some sp := by
    rw [hd2, Frame.getCol_setCol_ne (by decide) hwf1 hlen2]; exact hsp1
  have hcv2 : d2.getCol "conversions" = some cv := by
    rw [hd2, Frame.getCol_setCol_ne (by decide) hwf1 hlen2]; exact hcv1
  have hvv2 : d2.getCol "conversion_value" = some vv := by
    rw [hd2, Frame.getCol_setCol_ne (by decide) hwf1 hlen2]; exact hvv1
  have hctr2 : d2.getCol "ctr" = some (List.zipWith ctrOp cl im) := by
    rw [hd2, Frame.getCol_setCol_ne (by decide) hwf1 hlen2]; exact hctr1
  have hcpc2 : d2.getCol "cpc" = some (List.zipWith cpcOp sp cl) :=
    Frame.getCol_setCol_self hwf1 hlen2
  -- step 3: cpm
  have hlen3 : (List.zipWith cpmOp sp im).length = d2.nRows := by
    rw [hn2]; exact zipLen hLsp hLim
  have e3 := @deriveStep_eq _ _ _ _ cpmOp _ _ h3b hsp2 him2
  set d3 := d2.setCol "cpm" (List.zipWith cpmOp sp im) with hd3
  have hwf3 : d3.WF := Frame.setCol_WF hwf2 hlen3
  have hn3 : d3.nRows = df.nRows := by rw [hd3, Frame.setCol_nRows hlen3, hn2]
  have h4c : d3.hasCol "cpa" = false := by
    rw [hd3, Frame.hasCol_setCol_ne (by decide)]; exact h4b
  have h5c : d3.hasCol "roas" = false := by
    rw [hd3, Frame.hasCol_setCol_ne (by decide)]; exact h5b
  have hsp3 : d3.getCol "spend" = some sp := by
    rw [hd3, Frame.getCol_setCol_ne (by decide) hwf2 hlen3]; exact hsp2
  have hcv3 : d3.getCol "conversions" = some cv := by
    rw [hd3, Frame.getCol_setCol_ne (by decide) hwf2 hlen3]; exact hcv2
  have hvv3 : d3.getCol "conversion_value" = some vv := by
    rw [hd3, Frame.getCol_setCol_ne (by decide) hwf2 hlen3]; exact hvv2
  have hctr3 : d3.getCol "ctr" = some (List.zipWith ctrOp cl im) := by
    rw [hd3, Frame.getCol_setCol_ne (by decide) hwf2 hlen3]; exact hctr2
  have hcpc3 : d3.getCol "cpc" = some (List.zipWith cpcOp sp cl) := by
    rw [hd3, Frame.getCol_setCol_ne (by decide) hwf2 hlen3]; exact hcpc2
  have hcpm3 : d3.getCol "cpm" = some (List.zipWith cpmOp sp im) :=
    Frame.getCol_setCol_self hwf2 hlen3
  -- step 4: cpa
  have hlen4 : (List.zipWith cpaOp sp cv).length = d3.nRows := by
    rw [hn3]; exact zipLen hLsp hLcv
  have e4 := @deriveStep_eq _ _ _ _ cpaOp _ _ h4c hsp3 hcv3
  set d4 := d3.setCol "cpa" (List.zipWith cpaOp sp cv) with hd4
  have hwf4 : d4.WF := Frame.setCol_WF hwf3 hlen4
  have hn4 : d4.nRows = df.nRows := by rw [hd4, Frame.setCol_nRows hlen4, hn3]
  have h5d : d4.hasCol "roas" = false := by
    rw [hd4, Frame.hasCol_setCol_ne (by decide)]; exact h5c
  have hsp4 : d4.getCol "spend" = some sp := by
    rw [hd4, Frame.getCol_setCol_ne (by decide) hwf3 hlen4]; exact hsp3
  have hvv4 : d4.getCol "conversion_value" = some vv := by
    rw [hd4, Frame.getCol_setCol_ne (by decide) hwf3 hlen4]; exact hvv3
  have hctr4 : d4.getCol "ctr" = some (List.zipWith ctrOp cl im) := by
    rw [hd4, Frame.getCol_setCol_ne (by decide) hwf3 hlen4]; exact hctr3
  have hcpc4 : d4.getCol "cpc" = some (List.zipWith cpcOp sp cl) := by
    rw [hd4, Frame.getCol_setCol_ne (by decide) hwf3 hlen4]; exact hcpc3
  have hcpm4 : d4.getCol "cpm" = some (List.zipWith cpmOp sp im) := by
    rw [hd4, Frame.getCol_setCol_ne (by decide) hwf3 hlen4]; exact hcpm3
  have hcpa4 : d4.getCol "cpa" = some (List.zipWith cpaOp sp cv) :=
    Frame.getCol_setCol_self hwf3 hlen4
  -- step 5: roas
  have hlen5 : (List.zipWith roasOp vv sp).length = d4.nRows := by
    rw [hn4]; exact zipLen hLvv hLsp
  have e5 := @deriveStep_eq _ _ _ _ roasOp _ _ h5d hvv4 hsp4
  set d5 := d4.setCol "roas" (List.zipWith roasOp vv sp) with hd5
  have hctr5 : d5.getCol "ctr" = some (List.zipWith ctrOp cl im) := by
    rw [hd5, Frame.getCol_setCol_ne (by decide) hwf4 hlen5]; exact hctr4
  have hcpc5 : d5.getCol "cpc" = some (List.zipWith cpcOp sp cl) := by
    rw [hd5, Frame.getCol_setCol_ne (by decide) hwf4 hlen5]; exact hcpc4
  have hcpm5 : d5.getCol "cpm" = some (List.zipWith cpmOp sp im) := by
    rw [hd5, Frame.getCol_setCol_ne (by decide) hwf4 hlen5]; exact hcpm4
  have hcpa5 : d5.getCol "cpa" = some (List.zipWith cpaOp sp cv) := by
    rw [hd5, Frame.getCol_setCol_ne (by decide) hwf4 hlen5]; exact hcpa4
  have hroas5 : d5.getCol "roas" = some (List.zipWith roasOp vv sp) :=
    Frame.getCol_setCol_self hwf4 hlen5
  -- the pipeline computes d5
  have efinal : (calcDerivedMetrics df).1 = d5 := by
    simp only [calcDerivedMetrics, e1, e2, e3, e4, e5]
  rw [efinal]
  refine ⟨⟨_, hctr5, ?_⟩, ⟨_, hcpc5, ?_⟩, ⟨_, hcpm5, ?_⟩, ⟨_, hcpa5, ?_⟩, ⟨_, hroas5, ?_⟩⟩
  · rw [zipWith_getElem? ctrOp cl im k _ _ hclk himk, ctrOp_num]
  · rw [zipWith_getElem? cpcOp sp cl k _ _ hspk hclk, cpcOp_num]
  · rw [zipWith_getElem? cpmOp sp im k _ _ hspk himk, cpmOp_num]
  · rw [zipWith_getElem? cpaOp sp cv k _ _ hspk hcvk, cpaOp_num]
  · rw [zipWith_getElem? roasOp vv sp k _ _ hvvk hspk, roasOp_num]

end DataNormalization

/-- Witness for `C1_derived_metrics` at clicks 5, impressions 10, spend 4,
conversions 0, conversion_value 8: CTR 50, CPC 0.8, CPM 400, CPA null, ROAS 2. -/
theorem C1_derived_metrics_witness :
    (∃ lc, (DataNormalization.calcDerivedMetrics derivedInputsFrame).1.getCol "ctr"
        = some lc ∧
      lc[0]? = some (.num (if (10 : ℚ) = 0 then
          (if (5 : ℚ) = 0 then PyFloat.nan else if 0 < (5 : ℚ) then PyFloat.inf
           else PyFloat.ninf)
        else PyFloat.val (PyFloat.roundQ4 (5 / 10 * 100))))) ∧
    (∃ lc, (DataNormalization.calcDerivedMetrics derivedInputsFrame).1.getCol "cpc"
        = some lc ∧
      lc[0]? = some (.num (if (5 : ℚ) = 0 then
          (if (4 : ℚ) = 0 then PyFloat.nan else if 0 < (4 : ℚ) then PyFloat.inf
           else PyFloat.ninf)
        else PyFloat.val (PyFloat.roundQ4 (4 / 5))))) ∧
    (∃ lc, (DataNormalization.calcDerivedMetrics derivedInputsFrame).1.getCol "cpm"
        = some lc ∧
      lc[0]? = some (.num (if (10 : ℚ) = 0 then
          (if (4 : ℚ) = 0 then PyFloat.nan else if 0 < (4 : ℚ) then PyFloat.inf
           else PyFloat.ninf)
        else PyFloat.val (PyFloat.roundQ4 (4 / 10 * 1000))))) ∧
    (∃ lc, (DataNormalization.calcDerivedMetrics derivedInputsFrame).1.getCol "cpa"
        = some lc ∧
      lc[0]? = some (.num (if (0 : ℚ) = 0 then PyFloat.nan
        else PyFloat.val (PyFloat.roundQ4 (4 / 0))))) ∧
    (∃ lc, (DataNormalization.calcDerivedMetrics derivedInputsFrame).1.getCol "roas"
        = some lc ∧
      lc[0]? = some (.num (if (4 : ℚ) = 0 then PyFloat.nan
        else PyFloat.val (PyFloat.roundQ4 (8 / 4))))) :=
  DataNormalization.C1_derived_metrics derivedInputsFrame 0 (by decide)
    (by decide) (by decide) (by decide) (by decide) (by decide)
    [.num (.val 5)] [.num (.val 10)] [.num (.val 4)] [.num (.val 0)] [.num (.val 8)]
    (by decide) (by decide) (by decide) (by decide) (by decide)
    5 10 4 0 8
    (by decide) (by decide) (by decide) (by decide) (by decide)

/-! ## C6: exact failure condition of the join-strategy merge -/

namespace DataMerger

theorem mem_of_getLast?_eq_some {α : Type} {l : List α} {b : α}
    (h : l.getLast? = some b) : b ∈ l := by
  rcases l with _ | ⟨a, t⟩
  · simp at h
  · rw [List.getLast?_eq_getLast (a :: t) (by simp)] at h
    have hb : (a :: t).getLast (by simp) = b := Option.some_inj.mp h
    rw [← hb]
    exact List.getLast_mem _

theorem findColumn_mem {cols cands : List String} {j : String}
    (h : findColumn cols cands = some j) : j ∈ cols := by
  unfold findColumn at h
  obtain ⟨cand, _, hc⟩ := List.exists_of_findSome?_eq_some h
  exact List.mem_of_mem_filter (mem_of_getLast?_eq_some hc)

theorem mem_commonCols (rest : List Frame) :
    ∀ (init : List String) (x : String),
      x ∈ rest.foldl (fun acc df => acc.filter (fun c => decide (c ∈ df.cols))) init ↔
      x ∈ init ∧ ∀ df ∈ rest, x ∈ df.cols := by
  induction rest with
  | nil => intro init x; simp
  | cons d ds ih =>
      intro init x
      rw [List.foldl_cons, ih]
      simp only [List.mem_filter, List.forall_mem_cons]
      constructor
      · rintro ⟨⟨h1, h2⟩, h3⟩
        exact ⟨h1, by simpa using h2, h3⟩
      · rintro ⟨h1, h2, h3⟩
        exact ⟨⟨h1, by simpa using h2⟩, h3⟩

/-- C6.  With the join strategy (and no platform labels), the merge fails
exactly when the first date-like/campaign-like candidate found *in the first
table* is absent from some input table — or no candidate occurs in the first
table at all.  In particular a failure does not mean that no candidate is
common to all tables. -/
theorem C6_join_failure_iff (d0 : Frame) (rest : List Frame) :
    (mergeDatasets (d0 :: rest) none "join").isErr = true ↔
    (∀ j, findColumn d0.cols (DATE_COLUMN_CANDIDATES ++ CAMPAIGN_COLUMN_CANDIDATES)
        = some j → ∃ df ∈ (d0 :: rest), j ∉ df.cols) := by
  cases hfc : findColumn d0.cols (DATE_COLUMN_CANDIDATES ++ CAMPAIGN_COLUMN_CANDIDATES) with
  | none =>
      have hev : (mergeDatasets (d0 :: rest) none "join").isErr = true := by
        unfold mergeDatasets
        simp [hfc, MergeResult.isErr]
      rw [hev]
      simp
  | some j =>
      have hmem : j ∈ d0.cols := findColumn_mem hfc
      by_cases hmemC : j ∈ rest.foldl
          (fun acc df => acc.filter (fun c => decide (c ∈ df.cols))) (dropDupFirst d0.cols)
      · have hev : (mergeDatasets (d0 :: rest) none "join").isErr = false := by
          unfold mergeDatasets
          simp [hfc, MergeResult.isErr, hmemC]
        rw [hev]
        simp only [Bool.false_eq_true, false_iff]
        intro hforall
        obtain ⟨df, hdf, hnot⟩ := hforall j rfl
        have hin := (mem_commonCols rest (dropDupFirst d0.cols) j).mp hmemC
        rcases List.mem_cons.mp hdf with hdf2 | hdf2
        · exact hnot (hdf2 ▸ hmem)
        · exact hnot (hin.2 df hdf2)
      · have hev : (mergeDatasets (d0 :: rest) none "join").isErr = true := by
          unfold mergeDatasets
          simp [hfc, MergeResult.isErr, hmemC]
        rw [hev]
        simp only [true_iff]
        intro j2 hj2
        have hj2e : j = j2 := Option.some_inj.mp hj2
        subst hj2e
        by_contra hall
        push_neg at hall
        apply hmemC
        rw [mem_commonCols]
        refine ⟨mem_dropDupFirst.mpr hmem, ?_⟩
        intro df hdf
        exact hall df (List.mem_cons_of_mem d0 hdf)

end DataMerger

/-! ## C2: aggregated CPA is null whenever summed conversions are zero -/

namespace DataMerger

theorem mem_insSorted {α : Type} (le : α → α → Bool) (a x : α) :
    ∀ l : List α, x ∈ insSorted le a l ↔ x = a ∨ x ∈ l := by
  intro l
  induction l with
  | nil => simp [insSorted]
  | cons b bs ih =>
      unfold insSorted
      by_cases h : le a b
      · simp [h]
      · simp only [h, Bool.false_eq_true, if_false, List.mem_cons, ih]
        tauto

theorem mem_insSort {α : Type} (le : α → α → Bool) (x : α) :
    ∀ l : List α, x ∈ insSort le l ↔ x ∈ l := by
  intro l
  induction l with
  | nil => simp [insSort]
  | cons b bs ih =>
      unfold insSort at ih ⊢
      rw [List.foldr_cons, mem_insSorted, ih, List.mem_cons]

theorem groupAgg_WF (df : Frame) (groupCols : List String)
    (aggDict : List (String × AggFn)) : (groupAgg df groupCols aggDict).WF := by
  unfold groupAgg
  intro r hr
  simp only [List.mem_map] at hr
  obtain ⟨k, hk, hbuild⟩ := hr
  rw [mem_insSort] at hk
  have hk2 := mem_dropDupFirst.mp hk
  simp only [List.mem_map] at hk2
  obtain ⟨r0, _, hkey⟩ := hk2
  subst hbuild
  simp only [List.length_append, List.length_map]
  rw [← hkey]
  simp

theorem Frame.getCol_of_hasCol {f : Frame} {n : String} (h : f.hasCol n = true) :
    ∃ l, f.getCol n = some l := by
  obtain ⟨i, hi⟩ := Frame.colIdx_isSome_of_hasCol h
  exact ⟨_, by unfold Frame.getCol; rw [hi]; rfl⟩

theorem Frame.hasCol_of_getCol {f : Frame} {n : String} {l : List Cell}
    (h : f.getCol n = some l) : f.hasCol n = true := by
  cases hh : f.hasCol n
  · rw [Frame.getCol, Frame.colIdx_eq_none_of_not_hasCol hh] at h
    simp at h
  · rfl

theorem cpaOp_den_zero (y : Cell) :
    DataNormalization.cpaOp y (Cell.num (.val 0)) = Cell.num .nan := by
  cases y with
  | num x => cases x <;> rfl
  | str s => rfl
  | date d => rfl

theorem condSetCol_WF {h : Frame} (hwf : h.WF) (t a b : String)
    (op : Cell → Cell → Cell) : (condSetCol h t a b op).WF := by
  unfold condSetCol
  by_cases hc : h.hasCol a && h.hasCol b
  · rw [if_pos hc]
    cases ha : h.getCol a with
    | none => exact hwf
    | some ca =>
        cases hb : h.getCol b with
        | none => exact hwf
        | some cb =>
            exact Frame.setCol_WF hwf
              (DataNormalization.zipLen (Frame.getCol_length ha) (Frame.getCol_length hb))
  · rw [if_neg hc]
    exact hwf

theorem condSetCol_getCol_ne {h : Frame} (hwf : h.WF) {t : String} (a b : String)
    (op : Cell → Cell → Cell) {m : String} (hm : m ≠ t) :
    (condSetCol h t a b op).getCol m = h.getCol m := by
  unfold condSetCol
  by_cases hc : h.hasCol a && h.hasCol b
  · rw [if_pos hc]
    cases ha : h.getCol a with
    | none => rfl
    | some ca =>
        cases hb : h.getCol b with
        | none => rfl
        | some cb =>
            exact Frame.getCol_setCol_ne hm hwf
              (DataNormalization.zipLen (Frame.getCol_length ha) (Frame.getCol_length hb))
  · rw [if_neg hc]

theorem condSetCol_hasCol_ne {h : Frame} (t a b : String)
    (op : Cell → Cell → Cell) {m : String} (hm : m ≠ t) :
    (condSetCol h t a b op).hasCol m = h.hasCol m := by
  unfold condSetCol
  by_cases hc : h.hasCol a && h.hasCol b
  · rw [if_pos hc]
    cases ha : h.getCol a with
    | none => rfl
    | some ca =>
        cases hb : h.getCol b with
        | none => rfl
        | some cb => exact Frame.hasCol_setCol_ne hm
  · rw [if_neg hc]

theorem condSetCol_getCol_self {h : Frame} (hwf : h.WF) (t : String) {a b : String}
    {ca cb : List Cell} (op : Cell → Cell → Cell)
    (ha : h.getCol a = some ca) (hb : h.getCol b = some cb) :
    (condSetCol h t a b op).getCol t = some (List.zipWith op ca cb) := by
  unfold condSetCol
  have hc : (h.hasCol a && h.hasCol b) = true := by
    rw [Frame.hasCol_of_getCol ha, Frame.hasCol_of_getCol hb]
    rfl
  rw [if_pos hc, ha, hb]
  exact Frame.getCol_setCol_self hwf
    (DataNormalization.zipLen (Frame.getCol_length ha) (Frame.getCol_length hb))

/-- Core of C2: in the recomputed output, any group whose (summed) conversions
value is 0 gets a null CPA, provided a spend column is present. -/
theorem recompute_cpa_null (g : Frame) (hwf : g.WF) (k : Nat) (cvl : List Cell)
    (hcv : (recomputeCampaignMetrics g).getCol "conversions" = some cvl)
    (hsp : (recomputeCampaignMetrics g).hasCol "spend" = true)
    (hk : cvl[k]? = some (.num (.val 0))) :
    ∃ cp, (recomputeCampaignMetrics g).getCol "cpa" = some cp ∧
      cp[k]? = some (.num .nan) := by
  unfold recomputeCampaignMetrics at hcv hsp ⊢
  dsimp only at hcv hsp ⊢
  set g1 := condSetCol g "ctr" "clicks" "impressions" DataNormalization.ctrOp with hg1
  have hwf1 : g1.WF := condSetCol_WF hwf _ _ _ _
  set g2 := condSetCol g1 "cpa" "spend" "conversions" DataNormalization.cpaOp with hg2
  have hwf2 : g2.WF := condSetCol_WF hwf1 _ _ _ _
  -- transport the output-level hypotheses down to g1
  rw [condSetCol_getCol_ne hwf2 _ _ _ (by decide)] at hcv
  rw [condSetCol_hasCol_ne _ _ _ _ (by decide)] at hsp
  have hcv1 : g1.getCol "conversions" = some cvl := by
    rw [hg2, condSetCol_getCol_ne hwf1 _ _ _ (by decide)] at hcv
    exact hcv
  have hsp1 : g1.hasCol "spend" = true := by
    rw [hg2, condSetCol_hasCol_ne _ _ _ _ (by decide)] at hsp
    exact hsp
  obtain ⟨sc, hsc⟩ := Frame.getCol_of_hasCol hsp1
  have hcpa2 : g2.getCol "cpa" = some (List.zipWith DataNormalization.cpaOp sc cvl) :=
    condSetCol_getCol_self hwf1 _ _ hsc hcv1
  refine ⟨List.zipWith DataNormalization.cpaOp sc cvl, ?_, ?_⟩
  · rw [condSetCol_getCol_ne hwf2 _ _ _ (by decide)]
    exact hcpa2
  · obtain ⟨y, hy⟩ : ∃ y, sc[k]? = some y := by
      cases hyy : sc[k]? with
      | none =>
          rw [List.getElem?_eq_none_iff] at hyy
          have h1 : k < cvl.length := (List.getElem?_eq_some.mp hk).1
          rw [Frame.getCol_length hcv1, ← Frame.getCol_length hsc] at h1
          omega
      | some y => exact ⟨y, rfl⟩
    rw [zipWith_getElem? _ sc cvl k y _ hy hk, cpaOp_den_zero]

end DataMerger



namespace DataMerger

/-- C2.  Campaign aggregation: any output group whose summed conversions equal
0 has a null CPA (the CPA recompute divides by
`conversions.replace(0, nan)`), whenever a spend column is present. -/
theorem C2_campaign_cpa_null (df : Frame) (b : Bool) (k : Nat) (cvl : List Cell)
    (hcv : (aggregateByCampaign df b).data.getCol "conversions" = some cvl)
    (hsp : (aggregateByCampaign df b).data.hasCol "spend" = true)
    (hk : cvl[k]? = some (.num (.val 0))) :
    ∃ cp, (aggregateByCampaign df b).data.getCol "cpa" = some cp ∧
      cp[k]? = some (.num .nan) := by
  cases hfc : findColumn df.cols CAMPAIGN_COLUMN_CANDIDATES with
  | none =>
      exfalso
      have hempty : (aggregateByCampaign df b).data = ⟨[], []⟩ := by
        unfold aggregateByCampaign
        rw [hfc]
      rw [hempty] at hcv
      simp [Frame.getCol, Frame.colIdx, findIdxA] at hcv
  | some cc =>
      have hshape : ∃ d2 gc ad, (aggregateByCampaign df b).data
          = recomputeCampaignMetrics (groupAgg d2 gc ad) := by
        unfold aggregateByCampaign
        rw [hfc]
        dsimp only
        exact ⟨_, _, _, rfl⟩
      obtain ⟨d2, gc, ad, hdata⟩ := hshape
      rw [hdata] at hcv hsp ⊢
      exact recompute_cpa_null _ (groupAgg_WF d2 gc ad) k cvl hcv hsp hk

/-- Witness for `C2_campaign_cpa_null`: one campaign, spend 60 + 40, summed
conversions 0 — the aggregated CPA is null. -/
theorem C2_campaign_cpa_null_witness :
    ((aggregateByCampaign campaignZeroConversions true).data.getCol "conversions"
      = some [.num (.val 0)]) ∧
    ∃ cp, (aggregateByCampaign campaignZeroConversions true).data.getCol "cpa"
        = some cp ∧ cp[0]? = some (.num .nan) :=
  ⟨by decide,
    C2_campaign_cpa_null campaignZeroConversions true 0 [.num (.val 0)]
      (by decide) (by decide) (by decide)⟩

end DataMerger

/-! ### C8: quality-score bounds and completeness-penalty monotonicity -/

theorem getD_eq_of_mem {α : Type} {l : List α} {i : Nat} {x : α}
    (h : l[i]? = some x) (d : α) : l.getD i d = x := by
  simp [List.getD_eq_getElem?_getD, h]

theorem foldl_step_le {α : Type} (f : ℚ → α → ℚ) (h : ∀ acc x, acc ≤ f acc x) :
    ∀ (l : List α) (init : ℚ), init ≤ List.foldl f init l
  | [], _ => le_refl _
  | a :: tl, init => le_trans (h init a) (foldl_step_le f h tl (f init a))

theorem countP_set_true {α : Type} (p : α → Bool) :
    ∀ (l : List α) (i : Nat) (x y : α), l[i]? = some x → p x = false → p y = true →
      (l.set i y).countP p = l.countP p + 1
  | [], i, x, y, h, _, _ => by simp at h
  | a :: tl, 0, x, y, h, hx, hy => by
    simp only [List.getElem?_cons_zero, Option.some.injEq] at h
    subst h
    simp [List.countP_cons, hx, hy]
  | a :: tl, i + 1, x, y, h, hx, hy => by
    simp only [List.getElem?_cons_succ] at h
    simp only [List.set, List.countP_cons]
    rw [countP_set_true p tl i x y h hx hy]
    omega

theorem sum_countNan_set :
    ∀ (rows : List (List Cell)) (i : Nat) (r r' : List Cell), rows[i]? = some r →
      r'.countP (fun c => c.isna) = r.countP (fun c => c.isna) + 1 →
      ((rows.set i r').map (fun rr => rr.countP (fun c => c.isna))).sum
        = ((rows.map (fun rr => rr.countP (fun c => c.isna))).sum) + 1
  | [], i, r, r', h, _ => by simp at h
  | a :: tl, 0, r, r', h, hcnt => by
    simp only [List.getElem?_cons_zero, Option.some.injEq] at h
    subst h
    simp only [List.set, List.map_cons, List.sum_cons, hcnt]
    omega
  | a :: tl, i + 1, r, r', h, hcnt => by
    simp only [List.getElem?_cons_succ] at h
    simp only [List.set, List.map_cons, List.sum_cons]
    rw [sum_countNan_set tl i r r' h hcnt]
    omega

theorem map_getD_rows_set {jm : Nat} {d : Cell} :
    ∀ (rows : List (List Cell)) (i : Nat) (r r' : List Cell), rows[i]? = some r →
      r'.getD jm d = r.getD jm d →
      (rows.set i r').map (fun rr => rr.getD jm d) = rows.map (fun rr => rr.getD jm d)
  | [], i, r, r', h, _ => by simp at h
  | a :: tl, 0, r, r', h, hval => by
    simp only [List.getElem?_cons_zero, Option.some.injEq] at h
    subst h
    simp only [List.set, List.map_cons, hval]
  | a :: tl, i + 1, r, r', h, hval => by
    simp only [List.getElem?_cons_succ] at h
    simp only [List.set, List.map_cons]
    rw [map_getD_rows_set tl i r r' h hval]

theorem updateCell_cols {df : Frame} {name : String} {j : Nat}
    (hj : df.colIdx name = some j) (i : Nat) (c : Cell) :
    (updateCell df name i c).cols = df.cols := by
  unfold updateCell
  rw [hj]

theorem updateCell_rows {df : Frame} {name : String} {j : Nat}
    (hj : df.colIdx name = some j) (i : Nat) (c : Cell) :
    (updateCell df name i c).rows = df.rows.set i ((df.rows.getD i []).set j c) := by
  unfold updateCell
  rw [hj]

theorem updateCell_nRows {df : Frame} {name : String} {j : Nat}
    (hj : df.colIdx name = some j) (i : Nat) (c : Cell) :
    (updateCell df name i c).nRows = df.nRows := by
  unfold Frame.nRows
  rw [updateCell_rows hj]
  simp

theorem updateCell_size {df : Frame} {name : String} {j : Nat}
    (hj : df.colIdx name = some j) (i : Nat) (c : Cell) :
    (updateCell df name i c).size = df.size := by
  unfold Frame.size
  rw [updateCell_rows hj, updateCell_cols hj]
  simp

theorem updateCell_colIdx {df : Frame} {name : String} {j : Nat}
    (hj : df.colIdx name = some j) (i : Nat) (c : Cell) (m : String) :
    (updateCell df name i c).colIdx m = df.colIdx m := by
  unfold Frame.colIdx
  rw [updateCell_cols hj]

theorem updateCell_getCol_ne {df : Frame} {name : String} {j : Nat}
    (hj : df.colIdx name = some j) {i : Nat} {r : List Cell}
    (hr : df.rows[i]? = some r) (c : Cell) {m : String} (hm : m ≠ name) :
    (updateCell df name i c).getCol m = df.getCol m := by
  unfold Frame.getCol
  rw [updateCell_colIdx hj, updateCell_rows hj, getD_eq_of_mem hr]
  cases hm2 : df.colIdx m with
  | none => rfl
  | some jm =>
    simp only [Option.map_some']
    congr 1
    have hne : jm ≠ j := by
      intro he
      have h1 : df.cols[jm]? = some m := Frame.colIdx_getElem hm2
      have h2 : df.cols[j]? = some name := Frame.colIdx_getElem hj
      rw [he, h2] at h1
      have h3 : name = m := by injection h1
      exact hm h3.symm
    refine map_getD_rows_set df.rows i r (r.set j c) hr ?hgd
    rw [List.getD_eq_getElem?_getD, List.getD_eq_getElem?_getD,
      List.getElem?_set_ne (Ne.symm hne)]

theorem updateCell_countNan_self {df : Frame} {name : String} {j : Nat}
    (hj : df.colIdx name = some j) {i : Nat} {r : List Cell}
    (hr : df.rows[i]? = some r) {cell : Cell} (hc : r[j]? = some cell)
    (hnn : cell.isna = false) :
    ∃ l l', df.getCol name = some l
      ∧ (updateCell df name i (Cell.num .nan)).getCol name = some l'
      ∧ l'.countP (fun x => x.isna) = l.countP (fun x => x.isna) + 1 := by
  refine ⟨df.rows.map (fun rr => rr.getD j (Cell.num .nan)),
    (df.rows.map (fun rr => rr.getD j (Cell.num .nan))).set i
      ((r.set j (Cell.num .nan)).getD j (Cell.num .nan)), ?h1, ?h2, ?h3⟩
  · unfold Frame.getCol
    rw [hj]
    rfl
  · unfold Frame.getCol
    rw [updateCell_colIdx hj, hj, updateCell_rows hj, getD_eq_of_mem hr]
    simp only [Option.map_some']
    rw [List.map_set]
  · have hjlt : j < r.length := (List.getElem?_eq_some.mp hc).1
    have hset : (r.set j (Cell.num .nan))[j]? = some (Cell.num .nan) := by
      rw [List.getElem?_set_eq_of_lt]
      exact hjlt
    have hget : (r.set j (Cell.num .nan)).getD j (Cell.num .nan) = Cell.num .nan := by
      rw [List.getD_eq_getElem?_getD, hset]
      rfl
    rw [hget]
    refine countP_set_true (fun x => x.isna) _ i cell (Cell.num .nan) ?hx hnn rfl
    rw [List.getElem?_map, hr, Option.map_some', getD_eq_of_mem hc]

theorem missingCells_updateCell {df : Frame} {name : String} {j : Nat}
    (hj : df.colIdx name = some j) {i : Nat} {r : List Cell}
    (hr : df.rows[i]? = some r) {cell : Cell} (hc : r[j]? = some cell)
    (hnn : cell.isna = false) :
    DataQuality.missingCells (updateCell df name i (Cell.num .nan))
      = DataQuality.missingCells df + 1 := by
  unfold DataQuality.missingCells
  rw [updateCell_rows hj, getD_eq_of_mem hr]
  exact sum_countNan_set df.rows i r (r.set j (Cell.num .nan)) hr
    (countP_set_true (fun c => c.isna) r j cell (Cell.num .nan) hc hnn rfl)

theorem critPenalty_of_getCol_none {df : Frame} {col : String}
    (h : df.getCol col = none) : DataQuality.critPenalty df col = 0 := by
  unfold DataQuality.critPenalty
  rw [h]

theorem critPenalty_of_getCol_some {df : Frame} {col : String} {l : List Cell}
    (h : df.getCol col = some l) :
    DataQuality.critPenalty df col
      = (if l.countP (fun c => c.isna) > 0
          then min 20 ((l.countP (fun c => c.isna) : ℚ) / (df.nRows : ℚ) * 100) else 0) := by
  unfold DataQuality.critPenalty
  rw [h]

theorem critPenalty_nonneg (df : Frame) (col : String) :
    0 ≤ DataQuality.critPenalty df col := by
  cases h : df.getCol col with
  | none => rw [critPenalty_of_getCol_none h]
  | some l =>
    rw [critPenalty_of_getCol_some h]
    split
    · exact le_min (by norm_num) (by positivity)
    · exact le_refl 0

theorem completenessPenalty_nonneg (df : Frame) :
    0 ≤ DataQuality.completenessPenalty df := by
  simp only [DataQuality.completenessPenalty]
  refine add_nonneg ?h1 ?h2
  · refine List.sum_nonneg ?hx
    intro x hx
    obtain ⟨col, _, hcol⟩ := List.mem_map.mp hx
    rw [← hcol]
    exact critPenalty_nonneg df col
  · split
    · have he : (1 : ℚ) - (1 - (DataQuality.missingCells df : ℚ) / (df.size : ℚ))
          = (DataQuality.missingCells df : ℚ) / (df.size : ℚ) := by ring
      rw [he]
      positivity
    · exact le_refl 0

theorem uniquenessPenalty_nonneg (df : Frame) : 0 ≤ DataQuality.uniquenessPenalty df := by
  simp only [DataQuality.uniquenessPenalty]
  split
  · exact le_min (by norm_num) (by positivity)
  · exact le_refl 0

theorem validityPenalty_nonneg (df : Frame) : 0 ≤ DataQuality.validityPenalty df := by
  simp only [DataQuality.validityPenalty]
  refine add_nonneg (add_nonneg ?h1 ?h2) ?h3
  · split
    · exact le_refl 0
    · split
      · exact le_min (by norm_num) (by positivity)
      · exact le_refl 0
  · split
    · exact le_refl 0
    · split
      · exact le_min (by norm_num) (by positivity)
      · exact le_refl 0
  · refine foldl_step_le _ ?hstep _ 0
    intro acc x
    dsimp only
    split
    · exact le_refl acc
    · split
      · exact le_add_of_nonneg_right (le_min (by norm_num) (by positivity))
      · exact le_refl acc

theorem consistencyPenalty_nonneg (df : Frame) : 0 ≤ DataQuality.consistencyPenalty df := by
  simp only [DataQuality.consistencyPenalty]
  split
  · split
    · exact le_min (by norm_num) (by positivity)
    · exact le_refl 0
  · exact le_refl 0

theorem checkQualityScore_nonneg (df : Frame) : 0 ≤ DataQuality.checkQualityScore df :=
  le_max_left 0 _

theorem checkQualityScore_le_100 (df : Frame) : DataQuality.checkQualityScore df ≤ 100 := by
  unfold DataQuality.checkQualityScore
  refine max_le (by norm_num) ?h
  have h1 := completenessPenalty_nonneg df
  have h2 := uniquenessPenalty_nonneg df
  have h3 := validityPenalty_nonneg df
  have h4 := consistencyPenalty_nonneg df
  have h5 : DataQuality.timelinessPenalty df = 0 := rfl
  linarith

theorem critPenalty_updateCell_ne {df : Frame} {name : String} {j : Nat}
    (hj : df.colIdx name = some j) {i : Nat} {r : List Cell}
    (hr : df.rows[i]? = some r) (c : Cell) {m : String} (hm : m ≠ name) :
    DataQuality.critPenalty (updateCell df name i c) m = DataQuality.critPenalty df m := by
  unfold DataQuality.critPenalty
  rw [updateCell_getCol_ne hj hr c hm, updateCell_nRows hj]

theorem critPenalty_updateCell_self {df : Frame} {name : String} {j : Nat}
    (hj : df.colIdx name = some j) {i : Nat} {r : List Cell}
    (hr : df.rows[i]? = some r) {cell : Cell} (hc : r[j]? = some cell)
    (hnn : cell.isna = false) :
    DataQuality.critPenalty df name
      ≤ DataQuality.critPenalty (updateCell df name i (Cell.num .nan)) name := by
  obtain ⟨l, l', hl, hl', hcnt⟩ := updateCell_countNan_self hj hr hc hnn
  rw [critPenalty_of_getCol_some hl, critPenalty_of_getCol_some hl', hcnt,
    updateCell_nRows hj]
  rw [if_pos (Nat.succ_pos _)]
  by_cases hm0 : l.countP (fun x => x.isna) > 0
  · rw [if_pos hm0]
    refine min_le_min (le_refl 20) ?hmul
    rcases Nat.eq_zero_or_pos df.nRows with hn | hn
    · rw [hn]
      simp
    · have hnq : (0 : ℚ) < (df.nRows : ℚ) := by exact_mod_cast hn
      refine mul_le_mul_of_nonneg_right ?hdiv (by norm_num)
      refine (div_le_div_iff_of_pos_right hnq).mpr ?hcast
      push_cast
      linarith
  · rw [if_neg hm0]
    exact le_min (by norm_num) (by positivity)

/-- C8 (amended).  The quality score is always between the floor 0 and 100,
and the completeness penalty is monotone under missingness: nulling a present
value of a critical column never decreases it.  (The total score is *not*
monotone — see the counterexample, where nulling a value destroys a duplicate
row and the score rises.) -/
theorem C8_quality_bounds_and_completeness_monotone
    (df : Frame) (name : String) (i j : Nat) (r : List Cell) (cell : Cell)
    (hname : name ∈ DataQuality.criticalCols)
    (hj : df.colIdx name = some j)
    (hr : df.rows[i]? = some r)
    (hc : r[j]? = some cell)
    (hnn : cell.isna = false) :
    (∀ g : Frame, 0 ≤ DataQuality.checkQualityScore g ∧ DataQuality.checkQualityScore g ≤ 100)
      ∧ DataQuality.completenessPenalty df
          ≤ DataQuality.completenessPenalty (updateCell df name i (Cell.num .nan)) := by
  clear hname
  refine ⟨fun g => ⟨checkQualityScore_nonneg g, checkQualityScore_le_100 g⟩, ?mono⟩
  simp only [DataQuality.completenessPenalty]
  rw [missingCells_updateCell hj hr hc hnn, updateCell_size hj]
  refine add_le_add ?crit ?overall
  · refine List.sum_le_sum ?term
    intro col hcol
    by_cases hcn : col = name
    · subst hcn
      exact critPenalty_updateCell_self hj hr hc hnn
    · rw [critPenalty_updateCell_ne hj hr (Cell.num .nan) hcn]
  · have hs : 0 < df.size := by
      unfold Frame.size
      have hrows : 0 < df.rows.length := by
        rcases hlen : df.rows with _ | ⟨a, tl⟩
        · rw [hlen] at hr
          simp at hr
        · simp
      have hcols : 0 < df.cols.length := lt_of_le_of_lt (Nat.zero_le j) (findIdxA_lt_length hj)
      exact Nat.mul_pos hrows hcols
    have hsq : (0 : ℚ) < (df.size : ℚ) := by exact_mod_cast hs
    have hle : (DataQuality.missingCells df : ℚ) / (df.size : ℚ)
        ≤ ((DataQuality.missingCells df + 1 : ℕ) : ℚ) / (df.size : ℚ) := by
      refine (div_le_div_iff_of_pos_right hsq).mpr ?hcast
      push_cast
      linarith
    have hy : (0 : ℚ) ≤ ((DataQuality.missingCells df + 1 : ℕ) : ℚ) / (df.size : ℚ) := by
      positivity
    split_ifs
    · linarith
    · linarith
    · linarith
    · exact le_refl 0

/-- Witness for `C8_quality_bounds_and_completeness_monotone`: nulling the
present `spend` value of row 1 of the 10x10 example table. -/
theorem C8_quality_bounds_and_completeness_monotone_witness :
    ("spend" ∈ DataQuality.criticalCols
      ∧ qualityT1.colIdx "spend" = some 1
      ∧ qualityT1.rows[1]? = some (qualityRow "a" (.val 1) 0)
      ∧ (qualityRow "a" (.val 1) 0)[1]? = some (Cell.num (.val 1))
      ∧ (Cell.num (.val 1)).isna = false)
    ∧ ((∀ g : Frame, 0 ≤ DataQuality.checkQualityScore g
          ∧ DataQuality.checkQualityScore g ≤ 100)
        ∧ DataQuality.completenessPenalty qualityT1
            ≤ DataQuality.completenessPenalty (updateCell qualityT1 "spend" 1 (Cell.num .nan))) :=
  ⟨⟨by decide, by decide, by decide, by decide, by decide⟩,
    C8_quality_bounds_and_completeness_monotone qualityT1 "spend" 1 1
      (qualityRow "a" (.val 1) 0) (Cell.num (.val 1))
      (by decide) (by decide) (by decide) (by decide) (by decide)⟩
